import Mathlib

/-!
# Saving and loading of orders (`src/saveload/order_sl.cpp`)

A shallow embedding of the order chunk handlers of `order_sl.cpp`:
the conversion of the flags of orders from old savegames
(`BaseOrder::ConvertFromOldSavegame`), the unpacking of 16-bit packed orders
(`UnpackVersion4Order`, `UnpackOldOrder`), the field table of orders
(`GetOrderDescription`) with a field codec for it, `Save_ORDR`, `Load_ORDR`
with its legacy branch that rebuilds the `next` links from storage position
and its branch that reads the array chunk element by element, the reference
pass `Ptrs_ORDR`, and the gates of the order backup chunk (`Save_BKOR`,
`Load_BKOR`).

Machine integers are natural numbers; every store into a `uint8` is reduced
modulo `2 ^ 8` where the C++ code narrows.  Pointers into a pool are the pool
index of their target, `none` being `NULL`.
-/

namespace OrderSl

/-! ## Bit helpers (`core/bitmath_func.hpp`) -/

/-- Modelled from the spec: the helper `GB(x, s, n)` of `core/bitmath_func.hpp` (not among the
sources): fetch the `n` bits of `x` that start at bit `s`,
`(x >> s) & ((1 << n) - 1)`. -/
def GB (x s n : Nat) : Nat := (x >>> s) &&& ((1 <<< n) - 1)

/-- Modelled from the spec: the helper `SB(x, s, n, d)` of `core/bitmath_func.hpp` (not among the
sources) at type `uint8`: clear the `n` bits of `x` that start at bit `s`, then or in `d << s`;
both steps are narrowed to eight bits:
`x &= (uint8)~(((1 << n) - 1) << s); x |= (uint8)(d << s)`. -/
def SB (x s n d : Nat) : Nat :=
  ((x % 256) &&& (255 ^^^ ((((1 <<< n) - 1) <<< s) % 256))) ||| ((d <<< s) % 256)

/-! ## Enumerations of `order_type.h` -/

/-- Modelled from the spec: `OrderType::OT_NOTHING` of `order_type.h` (not among the sources). -/
def OT_NOTHING : Nat := 0
/-- Modelled from the spec: `OrderType::OT_GOTO_STATION` of `order_type.h`. -/
def OT_GOTO_STATION : Nat := 1
/-- Modelled from the spec: `OrderType::OT_GOTO_DEPOT` of `order_type.h`. -/
def OT_GOTO_DEPOT : Nat := 2
/-- Modelled from the spec: `OrderType::OT_LOADING` of `order_type.h`. -/
def OT_LOADING : Nat := 3
/-- Modelled from the spec: `OrderType::OT_DUMMY` of `order_type.h`. -/
def OT_DUMMY : Nat := 5

/-- Modelled from the spec: `OrderNonStopFlags::ONSF_STOP_EVERYWHERE` of `order_type.h`. -/
def ONSF_STOP_EVERYWHERE : Nat := 0
/-- Modelled from the spec: `OrderNonStopFlags::ONSF_NO_STOP_AT_INTERMEDIATE_STATIONS`. -/
def ONSF_NO_STOP_AT_INTERMEDIATE_STATIONS : Nat := 1
/-- Modelled from the spec: `OrderNonStopFlags::ONSF_NO_STOP_AT_ANY_STATION`. -/
def ONSF_NO_STOP_AT_ANY_STATION : Nat := 3

/-- Modelled from the spec: `OrderStopLocation::OSL_PLATFORM_FAR_END` of `order_type.h`. -/
def OSL_PLATFORM_FAR_END : Nat := 2

/-- Modelled from the spec: `OrderUnloadFlags::OUF_UNLOAD_IF_POSSIBLE` of `order_type.h`. -/
def OUF_UNLOAD_IF_POSSIBLE : Nat := 0
/-- Modelled from the spec: `OrderUnloadFlags::OUFB_UNLOAD` (`1 << 0`). -/
def OUFB_UNLOAD : Nat := 1
/-- Modelled from the spec: `OrderUnloadFlags::OUFB_TRANSFER` (`1 << 1`). -/
def OUFB_TRANSFER : Nat := 2

/-- Modelled from the spec: `OrderLoadFlags::OLF_LOAD_IF_POSSIBLE` of `order_type.h`. -/
def OLF_LOAD_IF_POSSIBLE : Nat := 0
/-- Modelled from the spec: `OrderLoadFlags::OLFB_FULL_LOAD` (`1 << 1`). -/
def OLFB_FULL_LOAD : Nat := 2
/-- Modelled from the spec: `OrderLoadFlags::OLF_FULL_LOAD_ANY` (`3`). -/
def OLF_FULL_LOAD_ANY : Nat := 3
/-- Modelled from the spec: `OrderLoadFlags::OLFB_NO_LOAD` (`4`). -/
def OLFB_NO_LOAD : Nat := 4

/-- Modelled from the spec: `OrderDepotTypeFlags::ODTF_MANUAL` of `order_type.h`. -/
def ODTF_MANUAL : Nat := 0
/-- Modelled from the spec: `OrderDepotTypeFlags::ODTFB_SERVICE` (`1 << 0`). -/
def ODTFB_SERVICE : Nat := 1
/-- Modelled from the spec: `OrderDepotTypeFlags::ODTFB_PART_OF_ORDERS` (`1 << 1`). -/
def ODTFB_PART_OF_ORDERS : Nat := 2

/-- Modelled from the spec: `OrderDepotActionFlags::ODATF_SERVICE_ONLY` of `order_type.h`. -/
def ODATF_SERVICE_ONLY : Nat := 0
/-- Modelled from the spec: `OrderDepotActionFlags::ODATFB_HALT` (`1 << 0`). -/
def ODATFB_HALT : Nat := 1

/-! ## Version context and client settings -/

/-- The savegame types named by `ConvertFromOldSavegame` (`SGT_TTO`, `SGT_TTD`) and the other
types of savegame a version context can carry. -/
inductive SavegameType where
  | SGT_TTO
  | SGT_TTD
  | SGT_TTDP1
  | SGT_TTDP2
  | SGT_OTTD
  | SGT_FTTD
  deriving DecidableEq

/-- Modelled from the spec: the version context `SavegameTypeVersion` (declared in a header that
is not among the sources).  The code of `order_sl.cpp` reads its `type` and asks it
`is_ottd_before (major, minor)` and `is_current ()`; the answers of these two queries are carried
as fields, so that every statement below holds whatever the header computes. -/
structure SavegameTypeVersion where
  type : SavegameType
  is_ottd_before : Nat → Nat → Bool
  is_current : Bool

/-- Modelled from the spec: the version context of an OpenTTD savegame of version
`version.minor`, older than the current format: `is_ottd_before (major, minor)` compares
lexicographically. -/
def ottdContext (version minor : Nat) : SavegameTypeVersion :=
  { type := SavegameType.SGT_OTTD
    is_ottd_before := fun major mnr =>
      decide (version < major) || (version == major && decide (minor < mnr))
    is_current := false }

/-- The three members of `_settings_client.gui` that `ConvertFromOldSavegame` reads. -/
structure GUISettings where
  sg_new_nonstop : Bool
  new_nonstop : Bool
  sg_full_load_any : Bool
  deriving DecidableEq

/-! ## Orders (`order_base.h`) -/

/-- Modelled from the spec: the data members of `BaseOrder` (`order_base.h`, not among the
sources) that the field table `GetOrderDescription` names, apart from `next`. -/
structure BaseOrder where
  type : Nat
  flags : Nat
  dest : Nat
  refit_cargo_mask : Nat := 0
  wait_time : Nat := 0
  travel_time : Nat := 0
  max_speed : Nat := 65535
  deriving DecidableEq

namespace BaseOrder

/-- Modelled from the spec: the constructor `BaseOrder (uint32 packed)` of `order_base.h`:
`type` is bits 0-7, `flags` bits 8-15 and `dest` bits 16-31 of the packed value. -/
def ofPacked (packed : Nat) : BaseOrder :=
  { type := GB packed 0 8, flags := GB packed 8 8, dest := GB packed 16 16 }

/-- Modelled from the spec: `GetType ()` of `order_base.h`: the low four bits of `type`. -/
def GetType (o : BaseOrder) : Nat := GB o.type 0 4

/-- Modelled from the spec: `IsType (type)` of `order_base.h`. -/
def IsType (o : BaseOrder) (t : Nat) : Bool := o.GetType == t

/-- Modelled from the spec: `MakeDummy ()` of `order_base.h`: the type becomes `OT_DUMMY` and
the flags are cleared. -/
def MakeDummy (o : BaseOrder) : BaseOrder := { o with type := OT_DUMMY, flags := 0 }

/-- Modelled from the spec: `SetNonStopType` of `order_base.h`: bits 6-7 of `type`. -/
def SetNonStopType (o : BaseOrder) (v : Nat) : BaseOrder := { o with type := SB o.type 6 2 v }
/-- Modelled from the spec: `GetNonStopType` of `order_base.h`. -/
def GetNonStopType (o : BaseOrder) : Nat := GB o.type 6 2

/-- Modelled from the spec: `SetStopLocation` of `order_base.h`: bits 4-5 of `type`. -/
def SetStopLocation (o : BaseOrder) (v : Nat) : BaseOrder := { o with type := SB o.type 4 2 v }
/-- Modelled from the spec: `GetStopLocation` of `order_base.h`. -/
def GetStopLocation (o : BaseOrder) : Nat := GB o.type 4 2

/-- Modelled from the spec: `SetLoadType` of `order_base.h`: bits 4-6 of `flags`. -/
def SetLoadType (o : BaseOrder) (v : Nat) : BaseOrder := { o with flags := SB o.flags 4 3 v }
/-- Modelled from the spec: `GetLoadType` of `order_base.h`. -/
def GetLoadType (o : BaseOrder) : Nat := GB o.flags 4 3

/-- Modelled from the spec: `SetUnloadType` of `order_base.h`: bits 0-2 of `flags`. -/
def SetUnloadType (o : BaseOrder) (v : Nat) : BaseOrder := { o with flags := SB o.flags 0 3 v }
/-- Modelled from the spec: `GetUnloadType` of `order_base.h`. -/
def GetUnloadType (o : BaseOrder) : Nat := GB o.flags 0 3

/-- Modelled from the spec: `SetDepotOrderType` of `order_base.h`: bits 0-2 of `flags`. -/
def SetDepotOrderType (o : BaseOrder) (v : Nat) : BaseOrder := { o with flags := SB o.flags 0 3 v }
/-- Modelled from the spec: `GetDepotOrderType` of `order_base.h`. -/
def GetDepotOrderType (o : BaseOrder) : Nat := GB o.flags 0 3

/-- Modelled from the spec: `SetDepotActionType` of `order_base.h`: bits 4-6 of `flags`. -/
def SetDepotActionType (o : BaseOrder) (v : Nat) : BaseOrder := { o with flags := SB o.flags 4 3 v }
/-- Modelled from the spec: `GetDepotActionType` of `order_base.h`. -/
def GetDepotActionType (o : BaseOrder) : Nat := GB o.flags 4 3

/-- The method `BaseOrder::ConvertFromOldSavegame (stv)`: move the bits of the flags of an
order of an old savegame to their new location.  `gui` is `_settings_client.gui`. -/
def ConvertFromOldSavegame (gui : GUISettings) (stv : SavegameTypeVersion) (this : BaseOrder) :
    BaseOrder :=
  let old_flags := this.flags % 256
  let this := { this with flags := 0 }
  -- First handle non-stop
  let this :=
    if gui.sg_new_nonstop || (stv.is_ottd_before 22 0 && stv.type != SavegameType.SGT_TTO
        && stv.type != SavegameType.SGT_TTD && gui.new_nonstop) then
      this.SetNonStopType (if old_flags &&& 8 ≠ 0 then ONSF_NO_STOP_AT_ANY_STATION
        else ONSF_NO_STOP_AT_INTERMEDIATE_STATIONS)
    else
      this.SetNonStopType (if old_flags &&& 8 ≠ 0 then ONSF_NO_STOP_AT_INTERMEDIATE_STATIONS
        else ONSF_STOP_EVERYWHERE)
  -- Only a few types need the other savegame conversions.
  if this.GetType = OT_GOTO_STATION ∨ this.GetType = OT_LOADING then
    -- case OT_GOTO_STATION sets the stop location and falls through to case OT_LOADING
    let this := if this.GetType = OT_GOTO_STATION then this.SetStopLocation OSL_PLATFORM_FAR_END
      else this
    let this :=
      if old_flags &&& 2 ≠ 0 then this.SetLoadType OLFB_NO_LOAD
      else if old_flags &&& 4 = 0 then this.SetLoadType OLF_LOAD_IF_POSSIBLE
      else this.SetLoadType (if gui.sg_full_load_any || stv.is_ottd_before 22 0
        then OLF_FULL_LOAD_ANY else OLFB_FULL_LOAD)
    if old_flags &&& 1 ≠ 0 then this.SetUnloadType OUFB_TRANSFER
    else if old_flags &&& 2 ≠ 0 then this.SetUnloadType OUFB_UNLOAD
    else this.SetUnloadType OUF_UNLOAD_IF_POSSIBLE
  else if this.GetType = OT_GOTO_DEPOT then
    let this := this.SetDepotActionType
      (if old_flags &&& 6 = 4 then ODATFB_HALT else ODATF_SERVICE_ONLY)
    let t := if old_flags &&& 6 = 6 then ODTFB_SERVICE else ODTF_MANUAL
    let t := if old_flags &&& 2 ≠ 0 then t ||| ODTFB_PART_OF_ORDERS else t
    this.SetDepotOrderType t
  else this

end BaseOrder

/-- The function `UnpackVersion4Order (uint16 packed)`: unpack an order from savegames with
version 4 and lower. -/
def UnpackVersion4Order (packed : Nat) : BaseOrder :=
  let packed := packed % 65536
  BaseOrder.ofPacked ((GB packed 8 8 <<< 16 ||| GB packed 4 4 <<< 8 ||| GB packed 0 4) % 4294967296)

/-- The function `UnpackOldOrder (uint16 packed)`: unpack an order from savegames made with
TTD(Patch); TTD stores invalid orders as `OT_NOTHING` with non-zero flags/station. -/
def UnpackOldOrder (packed : Nat) : BaseOrder :=
  let packed := packed % 65536
  let order := UnpackVersion4Order packed
  if order.IsType OT_NOTHING && packed != 0 then order.MakeDummy else order

/-! ## Pools -/

/-- Modelled from the spec: an item pool (`core/pool_type.hpp`, not among the sources) as a
stable-index arena: position `i` of the list is slot `i`, `none` is a free slot, and the length
of the list is the pool size that `FOR_ALL_..` loops run up to.  The capacity limit of a pool is
not part of the model. -/
abbrev Pool (α : Type) := List (Option α)

namespace Pool

/-- Modelled from the spec: `T::GetIfValid (index)`: the item in slot `index`, or `NULL` when the
index is not below the pool size or the slot is free. -/
def GetIfValid {α : Type} (pool : Pool α) (index : Nat) : Option α :=
  if index < pool.length then (pool.getD index none) else none

/-- Modelled from the spec: the placement `new (index) T (..)`: the pool grows up to slot
`index` when needed and the slot receives the item.  The handlers below create items at
ascending indices in an empty pool, so the slot is free whenever they call it. -/
def New {α : Type} (pool : Pool α) (index : Nat) (item : α) : Pool α :=
  if index < pool.length then pool.set index (some item)
  else pool ++ List.replicate (index - pool.length) none ++ [some item]

/-- Modelled from the spec: `delete item` for the item of slot `index`: the slot becomes free,
the pool size stays. -/
def Delete {α : Type} (pool : Pool α) (index : Nat) : Pool α := pool.set index none

end Pool

/-- An `Order` of the order pool: the members of `BaseOrder` and the `next` pointer, held as
the pool index of the order it points to. -/
structure Order extends BaseOrder where
  next : Option Nat := none
  deriving DecidableEq

namespace Order

/-- Modelled from the spec: the default constructor `Order ()` of `order_base.h` on the zeroed
memory of a pool slot. -/
def default : Order := { type := 0, flags := 0, dest := 0 }

/-- Modelled from the spec: the constructor `Order (uint32 packed)` of `order_base.h`. -/
def ofPacked (packed : Nat) : Order := { toBaseOrder := BaseOrder.ofPacked packed, next := none }

/-- Modelled from the spec: `AssignOrder (other)` of `order_base.h`: every member of the
`BaseOrder` part is taken from `other`, `next` is kept. -/
def AssignOrder (o : Order) (other : BaseOrder) : Order := { o with toBaseOrder := other }

end Order

/-! ## Readers and dumpers -/

/-- Modelled from the spec: the reader `LoadBuffer` (`saveload_internal.h`, not among the
sources), positioned at the start of a chunk.  `chunk` is the content of the chunk in the units
the handler reads it in: the fixed-width words of a legacy order array, or the elements of an
array chunk, where position is the element index and `none` is an element of length zero.
`skipped` counts the calls of `SkipChunk` and `objects_read` those of `ReadObject`. -/
structure LoadBuffer (α : Type) where
  stv : SavegameTypeVersion
  chunk : List α
  skipped : Nat := 0
  objects_read : Nat := 0

namespace LoadBuffer

/-- Modelled from the spec: `IsOTTDVersionBefore (major, minor)` asks the version context. -/
def IsOTTDVersionBefore {α : Type} (reader : LoadBuffer α) (major minor : Nat) : Bool :=
  reader.stv.is_ottd_before major minor

/-- Modelled from the spec: `SkipChunk ()`: the rest of the chunk is passed over unread. -/
def SkipChunk {α : Type} (reader : LoadBuffer α) : LoadBuffer α :=
  { reader with chunk := [], skipped := reader.skipped + 1 }

end LoadBuffer

/-- The maximal value of a `size_t`. -/
def SIZE_MAX : Nat := 2 ^ 64 - 1

/-- One round of the loop `FOR_ALL_ORDERS (o)` of the legacy branch of `Load_ORDR`, at pool
index `order_index`: an order of type `OT_NOTHING` is deleted; for any other order the order in
the slot before it, when that slot holds one, gets its `next` pointer set to this order.
`order_index - 1` is computed in `size_t`. -/
def Load_ORDR_update_next (pool : Pool Order) (order_index : Nat) : Pool Order :=
  match Pool.GetIfValid pool order_index with
  | none => pool
  | some o =>
    if o.IsType OT_NOTHING then Pool.Delete pool order_index
    else
      let prev_index := (order_index + SIZE_MAX) % 2 ^ 64
      match Pool.GetIfValid pool prev_index with
      | none => pool
      | some prev => pool.set prev_index (some { prev with next := some order_index })

/-- The branch of `Load_ORDR` taken when `reader->IsOTTDVersionBefore (5, 2)` holds (lines
139-182).  `reader.chunk` holds the `len` words of the chunk, of 16 bits before version 5 and
of 32 bits from version 5 on; the order pool is empty when the handler starts.  The result is
the order pool after the handler. -/
def Load_ORDR_legacy (reader : LoadBuffer Nat) : Pool Order :=
  let len := reader.chunk.length
  let pool : Pool Order :=
    if reader.IsOTTDVersionBefore 5 0 then
      (List.range len).foldl (fun pool i =>
        Pool.New pool i (Order.default.AssignOrder
          (UnpackVersion4Order (reader.chunk.getD i 0 % 2 ^ 16)))) []
    else
      (List.range len).foldl (fun pool i =>
        Pool.New pool i (Order.ofPacked (reader.chunk.getD i 0 % 2 ^ 32))) []
  (List.range pool.length).foldl Load_ORDR_update_next pool

/-- Follow `next` pointers `steps` times from the order in slot `index`: `some j` when the walk
stands at slot `j`, `none` when it has reached `NULL` (or left the table). -/
def followNext (pool : Pool Order) : Nat → Nat → Option Nat
  | 0, index => some index
  | steps + 1, index =>
    match Pool.GetIfValid pool index with
    | none => none
    | some o =>
      match o.next with
      | none => none
      | some j => followNext pool steps j

/-! ## Order backups -/

/-- The members of `OrderBackup` that the field table `GetOrderBackupDescription` names, in the
order of the table; `clone` and `orders` are references held as indices. -/
structure OrderBackup where
  user : Nat := 0
  tile : Nat := 0
  group : Nat := 0
  service_interval : Nat := 0
  name : String := ""
  clone : Option Nat := none
  cur_real_order_index : Nat := 0
  cur_implicit_order_index : Nat := 0
  current_order_time : Nat := 0
  lateness_counter : Int := 0
  timetable_start : Int := 0
  vehicle_flags : Nat := 0
  orders : Option Nat := none
  deriving DecidableEq

/-- The exception `SlCorrupt` with its message. -/
structure SlCorrupt where
  msg : String
  deriving DecidableEq

/-- The globals `_networking` and `_network_server` of `network/network.h`. -/
structure NetworkState where
  _networking : Bool
  _network_server : Bool
  deriving DecidableEq

/-- Modelled from the spec: the writer `SaveDumper` (not among the sources): the elements
written so far, each with the index it was written under. -/
structure SaveDumper (α : Type) where
  elements : List (Nat × α) := []

/-- Modelled from the spec: `WriteElement (index, object, description)`: one more element, keyed
by `index`, holding the described members of the object. -/
def SaveDumper.WriteElement {α : Type} (dumper : SaveDumper α) (index : Nat) (object : α) :
    SaveDumper α :=
  { dumper with elements := dumper.elements ++ [(index, object)] }

/-- The function `Save_BKOR (dumper)`: the order backups are saved only by a network server.
`pool` is the pool of order backups and `FOR_ALL_ORDER_BACKUPS` runs over its slots in
ascending order; the index of an item is its slot. -/
def Save_BKOR (net : NetworkState) (pool : Pool OrderBackup) (dumper : SaveDumper OrderBackup) :
    SaveDumper OrderBackup :=
  if !net._networking || !net._network_server then dumper
  else
    (List.range pool.length).foldl (fun dumper index =>
      match Pool.GetIfValid pool index with
      | none => dumper
      | some ob => dumper.WriteElement index ob) dumper

/-- Modelled from the spec: `ReadObject (ob, GetOrderBackupDescription ())`: every member named
by the field table is read from the element into the object. -/
def ReadObject_OrderBackup (ob : OrderBackup) (element : OrderBackup) : OrderBackup :=
  { ob with
    user := element.user
    tile := element.tile
    group := element.group
    service_interval := element.service_interval
    name := element.name
    clone := element.clone
    cur_real_order_index := element.cur_real_order_index
    cur_implicit_order_index := element.cur_implicit_order_index
    current_order_time := element.current_order_time
    lateness_counter := element.lateness_counter
    timetable_start := element.timetable_start
    vehicle_flags := element.vehicle_flags
    orders := element.orders }

/-- The state a load handler of the order backup chunk leaves behind: the reader, the pool of
order backups, and the exception thrown, if any. -/
structure BackupLoad where
  reader : LoadBuffer (Option OrderBackup)
  pool : Pool OrderBackup
  thrown : Option SlCorrupt

/-- The loop `while ((index = reader->IterateChunk ()) != -1)` of `Load_BKOR`: in an array
chunk `IterateChunk` passes over elements of length zero, counts the index up by one for each
element and answers `-1` at the end of the chunk; for each element it stops at, an
`OrderBackup` is created in slot `index` and read with `ReadObject`. -/
def Load_BKOR_loop (stv : SavegameTypeVersion) (skipped : Nat) :
    Nat → Pool OrderBackup → Nat → List (Option OrderBackup) → BackupLoad
  | _, pool, objects_read, [] =>
    { reader := { stv := stv, chunk := [], skipped := skipped, objects_read := objects_read }
      pool := pool, thrown := none }
  | index, pool, objects_read, none :: rest =>
    Load_BKOR_loop stv skipped (index + 1) pool objects_read rest
  | index, pool, objects_read, some element :: rest =>
    Load_BKOR_loop stv skipped (index + 1)
      (Pool.New pool index (ReadObject_OrderBackup {} element)) (objects_read + 1) rest

/-- The function `Load_BKOR (reader)`: order backups are loaded only in network clients, or,
when the code is compiled with `DEBUG_DUMP_COMMANDS`, when replaying; the chunk is never loaded
in a different version than it was saved in.  The pool of order backups is empty when the
handler starts. -/
def Load_BKOR (DEBUG_DUMP_COMMANDS : Bool) (net : NetworkState)
    (reader : LoadBuffer (Option OrderBackup)) : BackupLoad :=
  if !DEBUG_DUMP_COMMANDS && (!net._networking || net._network_server) then
    { reader := reader.SkipChunk, pool := [], thrown := none }
  else if !reader.stv.is_current then
    { reader := reader, pool := [], thrown := some { msg := "Invalid savegame version" } }
  else
    Load_BKOR_loop reader.stv reader.skipped 0 [] reader.objects_read reader.chunk

/-! ## Field tables and the field codec -/

/-- The members of `Order` that the field table `GetOrderDescription` stores as variables. -/
inductive OrderVar where
  | type
  | flags
  | dest
  | refit_cargo_mask
  | wait_time
  | travel_time
  | max_speed
  deriving DecidableEq

/-- Modelled from the spec: a conversion between savegame and memory (`saveload.h`, not among
the sources): the on-disk width in bytes and the in-memory width in bits. -/
structure VarType where
  file_bytes : Nat
  mem_bits : Nat
  deriving DecidableEq

/-- Modelled from the spec: `SLE_UINT8`, one byte on disk, eight bits in memory. -/
def SLE_UINT8 : VarType := { file_bytes := 1, mem_bits := 8 }
/-- Modelled from the spec: `SLE_UINT16`, two bytes on disk, sixteen bits in memory. -/
def SLE_UINT16 : VarType := { file_bytes := 2, mem_bits := 16 }
/-- Modelled from the spec: `SLE_UINT32`, four bytes on disk, thirty-two bits in memory. -/
def SLE_UINT32 : VarType := { file_bytes := 4, mem_bits := 32 }
/-- Modelled from the spec: `SLE_FILE_U8 | SLE_VAR_U32`, one byte on disk, thirty-two bits in
memory. -/
def SLE_FILE_U8_VAR_U32 : VarType := { file_bytes := 1, mem_bits := 32 }

/-- What a field descriptor stores: a variable of `Order`, the reference `next`, or a dead
placeholder of a number of bytes. -/
inductive SaveLoadCmd where
  | var (field : OrderVar) (conv : VarType)
  | ref
  | null (length : Nat)
  deriving DecidableEq

/-- Modelled from the spec: a field descriptor `SaveLoad` (`saveload.h`, not among the
sources): what it stores and its two version ranges, one in versions of the own format and one
in versions of the legacy OTTD format, each given by the version that introduced the field and
the version that ends the range.  A first version left out means no version of that format has
the field; an end left out means every later version has it. -/
structure SaveLoad where
  cmd : SaveLoadCmd
  version_from : Option Nat
  version_to : Option Nat
  legacy_from : Option Nat
  legacy_to : Option Nat
  deriving DecidableEq

/-- Modelled from the spec: the macro `SLE_VAR (base, variable, conv, from, to, lfrom, lto)`. -/
def SLE_VAR (field : OrderVar) (conv : VarType)
    (version_from version_to legacy_from legacy_to : Option Nat) : SaveLoad :=
  { cmd := SaveLoadCmd.var field conv, version_from := version_from, version_to := version_to
    legacy_from := legacy_from, legacy_to := legacy_to }

/-- Modelled from the spec: the macro `SLE_REF (base, variable, reftype)` without version
arguments: every version of both formats has the field. -/
def SLE_REF : SaveLoad :=
  { cmd := SaveLoadCmd.ref, version_from := some 0, version_to := none
    legacy_from := some 0, legacy_to := none }

/-- Modelled from the spec: the macro `SLE_NULL (length, from, to, lfrom, lto)`. -/
def SLE_NULL (length : Nat) (version_from version_to legacy_from legacy_to : Option Nat) :
    SaveLoad :=
  { cmd := SaveLoadCmd.null length, version_from := version_from, version_to := version_to
    legacy_from := legacy_from, legacy_to := legacy_to }

/-- The field table `GetOrderDescription ()`, up to `SLE_END ()`.  The first three entries have
no version arguments in the source: every version of both formats has them. -/
def GetOrderDescription : List SaveLoad :=
  [ SLE_VAR OrderVar.type SLE_UINT8 (some 0) none (some 0) none,
    SLE_VAR OrderVar.flags SLE_UINT8 (some 0) none (some 0) none,
    SLE_VAR OrderVar.dest SLE_UINT16 (some 0) none (some 0) none,
    SLE_REF,
    SLE_VAR OrderVar.refit_cargo_mask SLE_FILE_U8_VAR_U32 (some 0) (some 22) (some 36) none,
    SLE_VAR OrderVar.refit_cargo_mask SLE_UINT32 (some 23) none none none,
    SLE_NULL 1 none none (some 36) (some 181),
    SLE_VAR OrderVar.wait_time SLE_UINT16 (some 0) none (some 67) none,
    SLE_VAR OrderVar.travel_time SLE_UINT16 (some 0) none (some 67) none,
    SLE_VAR OrderVar.max_speed SLE_UINT16 (some 0) none (some 172) none,
    SLE_NULL 10 none none (some 5) (some 35) ]

/-- A schema version: a version of the own format, or a version of the legacy OTTD format. -/
inductive SchemaVersion where
  | fttd (version : Nat)
  | ottd (version : Nat)
  deriving DecidableEq

/-- Modelled from the spec: whether a version lies in a range of a field descriptor, which the
specification gives as `[introduced, removedExclusive)`: from the first version on and below
the end of the range. -/
def versionInRange (first last : Option Nat) (version : Nat) : Bool :=
  match first with
  | none => false
  | some f =>
    decide (f ≤ version) &&
      (match last with
       | none => true
       | some l => decide (version < l))

/-- Modelled from the spec: whether a field descriptor is valid at a schema version, the
presence test of the field codec: presence is determined by version comparison alone. -/
def SlIsObjectValidInSavegame (v : SchemaVersion) (sld : SaveLoad) : Bool :=
  match v with
  | SchemaVersion.fttd n => versionInRange sld.version_from sld.version_to n
  | SchemaVersion.ottd n => versionInRange sld.legacy_from sld.legacy_to n

/-- Modelled from the spec: a value read at an on-disk width of `bytes` bytes, with the bytes
left over; `none` when the stream ends within the value. -/
def ReadBE : Nat → List Nat → Option (Nat × List Nat)
  | 0, rest => some (0, rest)
  | _ + 1, [] => none
  | bytes + 1, b :: rest =>
    match ReadBE bytes rest with
    | none => none
    | some (x, rest2) => some (b % 256 * 256 ^ bytes + x, rest2)

/-- Modelled from the spec: the deferred reference captured at decode time from the integer of
the stream, held as the index it names; zero is the null sentinel. -/
def IntToReference (raw : Nat) : Option Nat :=
  if raw = 0 then none else some (raw - 1)

namespace Order

/-- Store a value into a variable member of an order. -/
def setVar (o : Order) (field : OrderVar) (x : Nat) : Order :=
  match field with
  | OrderVar.type => { o with type := x }
  | OrderVar.flags => { o with flags := x }
  | OrderVar.dest => { o with dest := x }
  | OrderVar.refit_cargo_mask => { o with refit_cargo_mask := x }
  | OrderVar.wait_time => { o with wait_time := x }
  | OrderVar.travel_time => { o with travel_time := x }
  | OrderVar.max_speed => { o with max_speed := x }

end Order

/-- Modelled from the spec: the decoder of the field codec, `ReadObject (object, table)`: the
fields are read in descriptor order; a descriptor that is valid at the version of the stream
is read at its on-disk width and narrowed to its in-memory width, a reference is captured as a
deferred reference, a dead placeholder is passed over, and a descriptor that is not valid
leaves its member as it is.  A stream that ends within a field is a fatal error.  The answer
is the object and the bytes left over; `ReadObject` works on the object in place, so an error
comes with the object as it stood when the error was thrown, the members read before it
stored. -/
def ReadObject (valid : SaveLoad → Bool) :
    List SaveLoad → Order → List Nat → Except (SlCorrupt × Order) (Order × List Nat)
  | [], o, bytes => Except.ok (o, bytes)
  | sld :: table, o, bytes =>
    if valid sld then
      match sld.cmd with
      | SaveLoadCmd.var field conv =>
        match ReadBE conv.file_bytes bytes with
        | none => Except.error ({ msg := "Truncated stream" }, o)
        | some (x, rest) => ReadObject valid table (o.setVar field (x % 2 ^ conv.mem_bits)) rest
      | SaveLoadCmd.ref =>
        match ReadBE 4 bytes with
        | none => Except.error ({ msg := "Truncated stream" }, o)
        | some (x, rest) => ReadObject valid table { o with next := IntToReference x } rest
      | SaveLoadCmd.null length =>
        if length ≤ bytes.length then ReadObject valid table o (bytes.drop length)
        else Except.error ({ msg := "Truncated stream" }, o)
    else ReadObject valid table o bytes

/-- Modelled from the spec: `OrderType::OT_CONDITIONAL` of `order_type.h`. -/
def OT_CONDITIONAL : Nat := 7

/-- Modelled from the spec: the helper `HasBit (x, y)` of `core/bitmath_func.hpp`:
`(x & (1 << y)) != 0`. -/
def HasBit (x y : Nat) : Bool := (x &&& (1 <<< y)) != 0

namespace BaseOrder

/-- Modelled from the spec: `GetWaitTime ()` of `order_base.h`. -/
def GetWaitTime (o : BaseOrder) : Nat := o.wait_time
/-- Modelled from the spec: `GetTravelTime ()` of `order_base.h`. -/
def GetTravelTime (o : BaseOrder) : Nat := o.travel_time

/-- Modelled from the spec: `IsWaitTimetabled ()` of `order_base.h`: a conditional order
counts as timetabled when its wait time is set, any other order when bit 3 of its flags is. -/
def IsWaitTimetabled (o : BaseOrder) : Bool :=
  if o.IsType OT_CONDITIONAL then decide (o.wait_time > 0) else HasBit o.flags 3
/-- Modelled from the spec: `IsTravelTimetabled ()` of `order_base.h`: a conditional order
counts as timetabled when its travel time is set, any other order when bit 7 of its flags
is. -/
def IsTravelTimetabled (o : BaseOrder) : Bool :=
  if o.IsType OT_CONDITIONAL then decide (o.travel_time > 0) else HasBit o.flags 7

/-- Modelled from the spec: `SetWaitTimetabled (timetabled)` of `order_base.h`: bit 3 of the
flags, unless the order is conditional. -/
def SetWaitTimetabled (o : BaseOrder) (timetabled : Bool) : BaseOrder :=
  if !o.IsType OT_CONDITIONAL then { o with flags := SB o.flags 3 1 (if timetabled then 1 else 0) }
  else o
/-- Modelled from the spec: `SetTravelTimetabled (timetabled)` of `order_base.h`: bit 7 of the
flags, unless the order is conditional. -/
def SetTravelTimetabled (o : BaseOrder) (timetabled : Bool) : BaseOrder :=
  if !o.IsType OT_CONDITIONAL then { o with flags := SB o.flags 7 1 (if timetabled then 1 else 0) }
  else o

end BaseOrder

/-- Modelled from the spec: the reader `LoadBuffer` at the `ORDR` chunk, with the two views of
the chunk that `Load_ORDR` reads it through, `words` for `ReadArray` (as in `LoadBuffer.chunk`)
and `elements` for `IterateChunk` and `ReadObject` (the bytes of each element of the array
chunk, `none` for an element of length zero), and the answers of the version queries that the
handler asks: `IsOTTDVersionBefore` through `stv`, `IsVersionBefore (major, legacy)` and the
presence test of the field descriptors. -/
structure OrderLoadBuffer where
  stv : SavegameTypeVersion
  IsVersionBefore : Nat → Nat → Bool
  IsObjectValid : SaveLoad → Bool
  words : List Nat
  elements : List (Option (List Nat))

/-- The state `Load_ORDR` leaves behind: the order pool and the exception thrown, if any. -/
structure OrderLoad where
  pool : Pool Order
  thrown : Option SlCorrupt

/-- What the loop of the other branch of `Load_ORDR` does with one element: the order is read
under the field table into a fresh `Order ()`, and for a stream before version (19, 190) its
timetabled flags are set from the times read.  An error of `ReadObject` passes through, with
the order as `ReadObject` left it. -/
def Load_ORDR_read (reader : OrderLoadBuffer) (bytes : List Nat) :
    Except (SlCorrupt × Order) Order :=
  match ReadObject reader.IsObjectValid GetOrderDescription Order.default bytes with
  | Except.error e => Except.error e
  | Except.ok (order, _) =>
    if reader.IsVersionBefore 19 190 then
      let order : Order :=
        { order with toBaseOrder :=
            order.toBaseOrder.SetTravelTimetabled (decide (order.GetTravelTime > 0)) }
      let order : Order :=
        { order with toBaseOrder :=
            order.toBaseOrder.SetWaitTimetabled (decide (order.GetWaitTime > 0)) }
      Except.ok order
    else Except.ok order

/-- The loop `while ((index = reader->IterateChunk ()) != -1)` of `Load_ORDR`, as the loop of
`Load_BKOR`: elements of length zero are passed over, and each other element is read into the
order of its index.  The order is created in its slot before it is read, so when a fatal error
ends the loop the slot holds the order as far as it was read. -/
def Load_ORDR_loop (reader : OrderLoadBuffer) :
    Nat → Pool Order → List (Option (List Nat)) → OrderLoad
  | _, pool, [] => { pool := pool, thrown := none }
  | index, pool, none :: rest => Load_ORDR_loop reader (index + 1) pool rest
  | index, pool, some bytes :: rest =>
    match Load_ORDR_read reader bytes with
    | Except.error e => { pool := Pool.New pool index e.2, thrown := some e.1 }
    | Except.ok order => Load_ORDR_loop reader (index + 1) (Pool.New pool index order) rest

/-- The function `Load_ORDR (reader)`: streams before OTTD version 5.2 take the legacy branch,
every other stream is read element by element. -/
def Load_ORDR (reader : OrderLoadBuffer) : OrderLoad :=
  if reader.stv.is_ottd_before 5 2 then
    { pool := Load_ORDR_legacy { stv := reader.stv, chunk := reader.words }, thrown := none }
  else Load_ORDR_loop reader 0 [] reader.elements

/-! ## Reference resolution of orders -/

/-- The stop policy that `ConvertFromOldSavegame` stores, as a function of the settings, the
version context and the old flags: the two arms of its first `if`. -/
def nonStopOf (gui : GUISettings) (stv : SavegameTypeVersion) (old_flags : Nat) : Nat :=
  if gui.sg_new_nonstop || (stv.is_ottd_before 22 0 && stv.type != SavegameType.SGT_TTO
      && stv.type != SavegameType.SGT_TTD && gui.new_nonstop) then
    (if old_flags &&& 8 ≠ 0 then ONSF_NO_STOP_AT_ANY_STATION
      else ONSF_NO_STOP_AT_INTERMEDIATE_STATIONS)
  else
    (if old_flags &&& 8 ≠ 0 then ONSF_NO_STOP_AT_INTERMEDIATE_STATIONS
      else ONSF_STOP_EVERYWHERE)

/-- The order that the legacy branch of `Load_ORDR` creates for one word of the chunk:
`Order ()` assigned `UnpackVersion4Order (word)` before version 5, `Order (word)` from
version 5 on. -/
def legacyOrder (reader : LoadBuffer Nat) (word : Nat) : Order :=
  if reader.IsOTTDVersionBefore 5 0 then
    Order.default.AssignOrder (UnpackVersion4Order (word % 2 ^ 16))
  else Order.ofPacked (word % 2 ^ 32)

/-- The reader as the legacy branch of `Load_ORDR` sees it: the version context and the words
of the chunk. -/
def legacyReader (reader : OrderLoadBuffer) : LoadBuffer Nat :=
  { stv := reader.stv, chunk := reader.words }

/-- Whether position `i` of a list of created orders holds an order that is not of type
`OT_NOTHING`. -/
def isLive (os : List Order) (i : Nat) : Bool :=
  match os[i]? with
  | some o => !o.IsType OT_NOTHING
  | none => false

/-- Slot `i` of the order pool after the first `k` rounds of the loop over all orders, when
the pool started as the orders `os`: the loop invariant of the legacy branch. -/
def legacySlot (os : List Order) (k i : Nat) : Option Order :=
  match os[i]? with
  | none => none
  | some o =>
    if i < k then
      if o.IsType OT_NOTHING then none
      else some { o with
        next := if i + 1 < k ∧ isLive os (i + 1) = true then some (i + 1) else o.next }
    else some o

open BaseOrder

/-! ## Bit arithmetic -/

/-- The bit fetch `GB` as a quotient and a remainder. -/
theorem GB_eq_div_mod (x s n : Nat) : GB x s n = x / 2 ^ s % 2 ^ n := by
  unfold GB
  rw [Nat.shiftRight_eq_div_pow, Nat.one_shiftLeft, Nat.and_pow_two_sub_one_eq_mod]

/-- The store `SB` into a byte only looks at the low eight bits of the old value. -/
theorem SB_mod (x s n d : Nat) : SB (x % 256) s n d = SB x s n d := by
  unfold SB
  rw [Nat.mod_mod]

set_option maxRecDepth 100000 in
/-- Reading the fields of the `type` byte back after a store into bits 6-7 or into bits 4-5, checked
on every byte and every two-bit value. -/
theorem GB_SB_type_aux : ∀ t, t < 256 → ∀ v, v < 4 →
    GB (SB t 6 2 v) 0 4 = t % 16 ∧ GB (SB t 6 2 v) 6 2 = v ∧
    GB (SB t 4 2 v) 0 4 = t % 16 ∧ GB (SB t 4 2 v) 6 2 = GB t 6 2 ∧ GB (SB t 4 2 v) 4 2 = v := by
  decide

/-- The type of an order is the low nibble of its `type` byte. -/
theorem GetType_eq (o : BaseOrder) : o.GetType = o.type % 16 := by
  simp [GetType, GB_eq_div_mod]

/-- Masking with a constant below 256 does not see the bits above the low byte. -/
theorem and_mod_256 (f c : Nat) (hc : c < 256) : f % 256 &&& c = f &&& c := by
  have h : (255 : Nat) = 2 ^ 8 - 1 := by norm_num
  have h2 : (256 : Nat) = 2 ^ 8 := by norm_num
  rw [h2, ← Nat.and_pow_two_sub_one_eq_mod, Nat.and_assoc]
  congr 1
  rw [Nat.and_comm, Nat.and_pow_two_sub_one_eq_mod]
  exact Nat.mod_eq_of_lt (by omega)

/-- Setting the stop policy keeps the type of the order. -/
theorem GetType_SetNonStopType (o : BaseOrder) (v : Nat) (hv : v < 4) :
    (o.SetNonStopType v).GetType = o.GetType := by
  have h := GB_SB_type_aux (o.type % 256) (Nat.mod_lt _ (by norm_num)) v hv
  simp only [GetType, SetNonStopType]
  rw [← SB_mod, h.1, GB_eq_div_mod]
  omega

/-- The stop policy that was set is the one read back. -/
theorem GetNonStopType_SetNonStopType (o : BaseOrder) (v : Nat) (hv : v < 4) :
    (o.SetNonStopType v).GetNonStopType = v := by
  have h := GB_SB_type_aux (o.type % 256) (Nat.mod_lt _ (by norm_num)) v hv
  simp only [GetNonStopType, SetNonStopType]
  rw [← SB_mod, h.2.1]

/-- Setting the stop location keeps the stop policy. -/
theorem GetNonStopType_SetStopLocation (o : BaseOrder) (v : Nat) (hv : v < 4) :
    (o.SetStopLocation v).GetNonStopType = o.GetNonStopType := by
  have h := GB_SB_type_aux (o.type % 256) (Nat.mod_lt _ (by norm_num)) v hv
  simp only [GetNonStopType, SetStopLocation]
  rw [← SB_mod, h.2.2.2.1, GB_eq_div_mod, GB_eq_div_mod]
  omega

/-- The stop policy stored by the conversion fits its two bits. -/
theorem nonStopOf_lt (gui stv f) : nonStopOf gui stv f < 4 := by
  unfold nonStopOf
  split_ifs <;> decide

/-- The conversion with its first `if` folded into `nonStopOf` and the `switch` decided on the
type of the order before the conversion, which setting the stop policy does not change. -/
theorem convert_eq (gui : GUISettings) (stv : SavegameTypeVersion) (o : BaseOrder) :
    o.ConvertFromOldSavegame gui stv =
      (let old_flags := o.flags % 256
       let this := ({ o with flags := 0 } : BaseOrder).SetNonStopType (nonStopOf gui stv old_flags)
       if o.GetType = OT_GOTO_STATION ∨ o.GetType = OT_LOADING then
         let this := if o.GetType = OT_GOTO_STATION then this.SetStopLocation OSL_PLATFORM_FAR_END
           else this
         let this :=
           if old_flags &&& 2 ≠ 0 then this.SetLoadType OLFB_NO_LOAD
           else if old_flags &&& 4 = 0 then this.SetLoadType OLF_LOAD_IF_POSSIBLE
           else this.SetLoadType (if gui.sg_full_load_any || stv.is_ottd_before 22 0
             then OLF_FULL_LOAD_ANY else OLFB_FULL_LOAD)
         if old_flags &&& 1 ≠ 0 then this.SetUnloadType OUFB_TRANSFER
         else if old_flags &&& 2 ≠ 0 then this.SetUnloadType OUFB_UNLOAD
         else this.SetUnloadType OUF_UNLOAD_IF_POSSIBLE
       else if o.GetType = OT_GOTO_DEPOT then
         let this := this.SetDepotActionType
           (if old_flags &&& 6 = 4 then ODATFB_HALT else ODATF_SERVICE_ONLY)
         let t := if old_flags &&& 6 = 6 then ODTFB_SERVICE else ODTF_MANUAL
         let t := if old_flags &&& 2 ≠ 0 then t ||| ODTFB_PART_OF_ORDERS else t
         this.SetDepotOrderType t
       else this) := by
  have hT : (({ o with flags := 0 } : BaseOrder).SetNonStopType
      (nonStopOf gui stv (o.flags % 256))).GetType = o.GetType := by
    rw [GetType_SetNonStopType _ _ (nonStopOf_lt _ _ _)]
    rfl
  have hS : ∀ (c : Prop) [Decidable c] (a b : Nat) (x : BaseOrder),
      (if c then x.SetNonStopType a else x.SetNonStopType b)
        = x.SetNonStopType (if c then a else b) := by
    intro c _ a b x; split_ifs <;> rfl
  unfold ConvertFromOldSavegame
  simp only [hS]
  have hN : (if (gui.sg_new_nonstop || (stv.is_ottd_before 22 0 && stv.type != SavegameType.SGT_TTO
        && stv.type != SavegameType.SGT_TTD && gui.new_nonstop)) = true then
      (if o.flags % 256 &&& 8 ≠ 0 then ONSF_NO_STOP_AT_ANY_STATION
        else ONSF_NO_STOP_AT_INTERMEDIATE_STATIONS)
    else
      (if o.flags % 256 &&& 8 ≠ 0 then ONSF_NO_STOP_AT_INTERMEDIATE_STATIONS
        else ONSF_STOP_EVERYWHERE)) = nonStopOf gui stv (o.flags % 256) := rfl
  simp only [hN, hT]

set_option maxRecDepth 100000 in
/-- Reading the fields of the `flags` byte back after a store into bits 0-2 or into bits 4-6, checked
on every byte and every three-bit value. -/
theorem GB_SB_flags_aux : ∀ f, f < 256 → ∀ v, v < 8 →
    GB (SB f 0 3 v) 0 3 = v ∧ GB (SB f 0 3 v) 4 3 = GB f 4 3 ∧ GB (SB f 4 3 v) 4 3 = v := by
  decide

/-- A bit fetch within the low byte does not see the bits above it. -/
theorem GB_mod_256 (x s n : Nat) (h : s + n ≤ 8) : GB (x % 256) s n = GB x s n := by
  rw [GB_eq_div_mod, GB_eq_div_mod]
  have h1 : (256 : Nat) = 2 ^ s * (2 ^ n * 2 ^ (8 - s - n)) := by
    rw [← Nat.pow_add, ← Nat.pow_add]
    have : s + (n + (8 - s - n)) = 8 := by omega
    rw [this]
  rw [h1, Nat.mod_mul_right_div_self, Nat.mod_mul_right_mod]

/-- The unload policy that was set is the one read back. -/
theorem GetUnloadType_SetUnloadType (o : BaseOrder) (v : Nat) (hv : v < 8) :
    (o.SetUnloadType v).GetUnloadType = v := by
  have h := GB_SB_flags_aux (o.flags % 256) (Nat.mod_lt _ (by norm_num)) v hv
  simp only [GetUnloadType, SetUnloadType]
  rw [← SB_mod, h.1]

/-- Setting the unload policy keeps the load policy. -/
theorem GetLoadType_SetUnloadType (o : BaseOrder) (v : Nat) (hv : v < 8) :
    (o.SetUnloadType v).GetLoadType = o.GetLoadType := by
  have h := GB_SB_flags_aux (o.flags % 256) (Nat.mod_lt _ (by norm_num)) v hv
  simp only [GetLoadType, SetUnloadType]
  rw [← SB_mod, h.2.1, GB_mod_256 _ _ _ (by norm_num)]

/-- The load policy that was set is the one read back. -/
theorem GetLoadType_SetLoadType (o : BaseOrder) (v : Nat) (hv : v < 8) :
    (o.SetLoadType v).GetLoadType = v := by
  have h := GB_SB_flags_aux (o.flags % 256) (Nat.mod_lt _ (by norm_num)) v hv
  simp only [GetLoadType, SetLoadType]
  rw [← SB_mod, h.2.2]

/-- The depot order type that was set is the one read back. -/
theorem GetDepotOrderType_SetDepotOrderType (o : BaseOrder) (v : Nat) (hv : v < 8) :
    (o.SetDepotOrderType v).GetDepotOrderType = v :=
  GetUnloadType_SetUnloadType o v hv

/-- Setting the depot order type keeps the depot action. -/
theorem GetDepotActionType_SetDepotOrderType (o : BaseOrder) (v : Nat) (hv : v < 8) :
    (o.SetDepotOrderType v).GetDepotActionType = o.GetDepotActionType :=
  GetLoadType_SetUnloadType o v hv

/-- The depot action that was set is the one read back. -/
theorem GetDepotActionType_SetDepotActionType (o : BaseOrder) (v : Nat) (hv : v < 8) :
    (o.SetDepotActionType v).GetDepotActionType = v :=
  GetLoadType_SetLoadType o v hv

/-- The unload policy stored by the conversion of a go-to-station or loading order. -/
theorem convert_unload (gui : GUISettings) (stv : SavegameTypeVersion) (o : BaseOrder)
    (hk : o.GetType = OT_GOTO_STATION ∨ o.GetType = OT_LOADING) :
    (o.ConvertFromOldSavegame gui stv).GetUnloadType =
      if o.flags % 256 &&& 1 ≠ 0 then OUFB_TRANSFER
      else if o.flags % 256 &&& 2 ≠ 0 then OUFB_UNLOAD else OUF_UNLOAD_IF_POSSIBLE := by
  rw [convert_eq]
  simp only [hk, if_true]
  split_ifs <;> exact GetUnloadType_SetUnloadType _ _ (by decide)

/-- The load policy stored by the conversion of a go-to-station or loading order. -/
theorem convert_load (gui : GUISettings) (stv : SavegameTypeVersion) (o : BaseOrder)
    (hk : o.GetType = OT_GOTO_STATION ∨ o.GetType = OT_LOADING) :
    (o.ConvertFromOldSavegame gui stv).GetLoadType =
      if o.flags % 256 &&& 2 ≠ 0 then OLFB_NO_LOAD
      else if o.flags % 256 &&& 4 = 0 then OLF_LOAD_IF_POSSIBLE
      else if gui.sg_full_load_any || stv.is_ottd_before 22 0
        then OLF_FULL_LOAD_ANY else OLFB_FULL_LOAD := by
  rw [convert_eq]
  simp only [hk, if_true]
  split_ifs <;>
    rw [GetLoadType_SetUnloadType _ _ (by decide), GetLoadType_SetLoadType _ _ (by decide)]

/-- A go-to-depot order is neither a go-to-station nor a loading order. -/
theorem depot_kind_ne {o : BaseOrder} (hk : o.GetType = OT_GOTO_DEPOT) :
    ¬ (o.GetType = OT_GOTO_STATION ∨ o.GetType = OT_LOADING) := by
  rw [hk]; decide

/-- The depot action stored by the conversion of a go-to-depot order. -/
theorem convert_depot_action (gui : GUISettings) (stv : SavegameTypeVersion) (o : BaseOrder)
    (hk : o.GetType = OT_GOTO_DEPOT) :
    (o.ConvertFromOldSavegame gui stv).GetDepotActionType =
      if o.flags % 256 &&& 6 = 4 then ODATFB_HALT else ODATF_SERVICE_ONLY := by
  rw [convert_eq]
  simp only [depot_kind_ne hk, if_false]
  simp only [hk, if_true]
  split_ifs <;>
    rw [GetDepotActionType_SetDepotOrderType _ _ (by decide),
      GetDepotActionType_SetDepotActionType _ _ (by decide)]

/-- The depot order type stored by the conversion of a go-to-depot order. -/
theorem convert_depot_order (gui : GUISettings) (stv : SavegameTypeVersion) (o : BaseOrder)
    (hk : o.GetType = OT_GOTO_DEPOT) :
    (o.ConvertFromOldSavegame gui stv).GetDepotOrderType =
      if o.flags % 256 &&& 2 ≠ 0
      then (if o.flags % 256 &&& 6 = 6 then ODTFB_SERVICE else ODTF_MANUAL) ||| ODTFB_PART_OF_ORDERS
      else (if o.flags % 256 &&& 6 = 6 then ODTFB_SERVICE else ODTF_MANUAL) := by
  rw [convert_eq]
  simp only [depot_kind_ne hk, if_false]
  simp only [hk, if_true]
  split_ifs <;> rw [GetDepotOrderType_SetDepotOrderType _ _ (by decide)]

/-- The stop policy stored by the conversion of any order. -/
theorem convert_nonstop (gui : GUISettings) (stv : SavegameTypeVersion) (o : BaseOrder) :
    (o.ConvertFromOldSavegame gui stv).GetNonStopType = nonStopOf gui stv (o.flags % 256) := by
  have h0 : ∀ x : BaseOrder, ∀ v, (x.SetLoadType v).GetNonStopType = x.GetNonStopType := by
    intros; rfl
  have h1 : ∀ x : BaseOrder, ∀ v, (x.SetUnloadType v).GetNonStopType = x.GetNonStopType := by
    intros; rfl
  have h2 : ∀ x : BaseOrder, ∀ v, (x.SetDepotActionType v).GetNonStopType = x.GetNonStopType := by
    intros; rfl
  have h3 : ∀ x : BaseOrder, ∀ v, (x.SetDepotOrderType v).GetNonStopType = x.GetNonStopType := by
    intros; rfl
  rw [convert_eq]
  dsimp only
  split_ifs <;>
    simp only [h0, h1, h2, h3, GetNonStopType_SetStopLocation _ _ (show OSL_PLATFORM_FAR_END < 4 by decide),
      GetNonStopType_SetNonStopType _ _ (nonStopOf_lt _ _ _)]

/-- A mask within the low three bits can be applied after masking with 7. -/
theorem and_of_and_7 (f c : Nat) (hc : 7 &&& c = c) : f &&& c = (f &&& 7) &&& c := by
  rw [Nat.and_assoc, hc]

/-! ## Claims on `ConvertFromOldSavegame` -/

/-- C3, counterexample: a go-to-depot order with legacy flags 6 (pattern 110) does not get the
bare automatic-service trigger: the depot order type stored is `ODTFB_SERVICE` together with
`ODTFB_PART_OF_ORDERS`. -/
theorem C3_counterexample_pattern_110 :
    (({ type := 2, flags := 6, dest := 9 } : BaseOrder).GetType = OT_GOTO_DEPOT) ∧
    (6 &&& 7 = 6) ∧
    (({ type := 2, flags := 6, dest := 9 } : BaseOrder).ConvertFromOldSavegame
        ⟨false, false, false⟩ (ottdContext 4 0)).GetDepotOrderType ≠ ODTFB_SERVICE ∧
    (({ type := 2, flags := 6, dest := 9 } : BaseOrder).ConvertFromOldSavegame
        ⟨false, false, false⟩ (ottdContext 4 0)).GetDepotOrderType
      &&& ODTFB_PART_OF_ORDERS ≠ 0 := by
  decide

/-- C3 (as amended): for every order of kind go-to-depot, whatever the settings and the version
context, the bits of value 4, 2 and 1 of the legacy flags are mapped as follows: pattern 110
gives depot action service-only and depot trigger automatic-service with the part-of-orders
modifier; pattern 100 gives action halt and trigger manual; pattern 010 gives action
service-only and trigger manual with the part-of-orders modifier. -/
theorem C3_depot_truth_table (gui : GUISettings) (stv : SavegameTypeVersion) (o : BaseOrder)
    (hk : o.GetType = OT_GOTO_DEPOT) :
    (o.flags &&& 7 = 6 →
      (o.ConvertFromOldSavegame gui stv).GetDepotActionType = ODATF_SERVICE_ONLY ∧
      (o.ConvertFromOldSavegame gui stv).GetDepotOrderType
        = ODTFB_SERVICE ||| ODTFB_PART_OF_ORDERS) ∧
    (o.flags &&& 7 = 4 →
      (o.ConvertFromOldSavegame gui stv).GetDepotActionType = ODATFB_HALT ∧
      (o.ConvertFromOldSavegame gui stv).GetDepotOrderType = ODTF_MANUAL) ∧
    (o.flags &&& 7 = 2 →
      (o.ConvertFromOldSavegame gui stv).GetDepotActionType = ODATF_SERVICE_ONLY ∧
      (o.ConvertFromOldSavegame gui stv).GetDepotOrderType
        = ODTF_MANUAL ||| ODTFB_PART_OF_ORDERS) := by
  rw [convert_depot_action gui stv o hk, convert_depot_order gui stv o hk,
    and_mod_256 _ 6 (by norm_num), and_mod_256 _ 2 (by norm_num),
    and_of_and_7 o.flags 6 rfl, and_of_and_7 o.flags 2 rfl]
  refine ⟨?_, ?_, ?_⟩ <;> intro h <;> rw [h] <;> decide

/-- C3, witness: the amended truth table at a go-to-depot order with legacy flags 4
(pattern 100). -/
theorem C3_depot_truth_table_witness :
    (({ type := 2, flags := 4, dest := 9 } : BaseOrder).GetType = OT_GOTO_DEPOT) ∧
    (({ type := 2, flags := 4, dest := 9 } : BaseOrder).flags &&& 7 = 4) ∧
    ((({ type := 2, flags := 4, dest := 9 } : BaseOrder).ConvertFromOldSavegame
        ⟨false, false, false⟩ (ottdContext 4 0)).GetDepotActionType = ODATFB_HALT ∧
     (({ type := 2, flags := 4, dest := 9 } : BaseOrder).ConvertFromOldSavegame
        ⟨false, false, false⟩ (ottdContext 4 0)).GetDepotOrderType = ODTF_MANUAL) :=
  ⟨by decide, by decide,
    (C3_depot_truth_table ⟨false, false, false⟩ (ottdContext 4 0)
      { type := 2, flags := 4, dest := 9 } (by decide)).2.1 (by decide)⟩

/-- C4, counterexample: a go-to-station order whose legacy flags are 6 has the full-load bit
(value 4) set, yet its load policy becomes no-load, which is neither full-load variant. -/
theorem C4_counterexample_unload_bit :
    (({ type := 1, flags := 6, dest := 9 } : BaseOrder).GetType = OT_GOTO_STATION) ∧
    (6 &&& 4 ≠ 0) ∧
    (({ type := 1, flags := 6, dest := 9 } : BaseOrder).ConvertFromOldSavegame
        ⟨false, false, true⟩ (ottdContext 4 0)).GetLoadType = OLFB_NO_LOAD ∧
    OLFB_NO_LOAD ≠ OLF_FULL_LOAD_ANY ∧ OLFB_NO_LOAD ≠ OLFB_FULL_LOAD := by
  decide

/-- C4 (as amended): for every order of kind go-to-station or loading, when the full-load bit
(value 4) of the legacy flags is set and the unload bit (value 2) is clear, the load policy
becomes full-load-any when `sg_full_load_any` is set or the version context is before OTTD
version 22, and plain full-load otherwise; when the unload bit is set the load policy becomes
no-load, whatever the full-load bit. -/
theorem C4_full_load_variants (gui : GUISettings) (stv : SavegameTypeVersion) (o : BaseOrder)
    (hk : o.GetType = OT_GOTO_STATION ∨ o.GetType = OT_LOADING) :
    (o.flags &&& 4 ≠ 0 → o.flags &&& 2 = 0 →
      (o.ConvertFromOldSavegame gui stv).GetLoadType =
        if gui.sg_full_load_any = true ∨ stv.is_ottd_before 22 0 = true
        then OLF_FULL_LOAD_ANY else OLFB_FULL_LOAD) ∧
    (o.flags &&& 2 ≠ 0 → (o.ConvertFromOldSavegame gui stv).GetLoadType = OLFB_NO_LOAD) := by
  rw [convert_load gui stv o hk, and_mod_256 _ 2 (by norm_num), and_mod_256 _ 4 (by norm_num)]
  refine ⟨?_, ?_⟩
  · intro h4 h2
    rw [if_neg (fun h => h h2), if_neg h4]
    simp only [Bool.or_eq_true]
  · intro h2
    rw [if_pos h2]

/-- C4, witness: a loading order with legacy flags 4, in a savegame of OTTD version 50 with
`sg_full_load_any` off, gets plain full-load. -/
theorem C4_full_load_variants_witness :
    ((({ type := 3, flags := 4, dest := 9 } : BaseOrder).GetType = OT_GOTO_STATION ∨
      ({ type := 3, flags := 4, dest := 9 } : BaseOrder).GetType = OT_LOADING) ∧
     ({ type := 3, flags := 4, dest := 9 } : BaseOrder).flags &&& 4 ≠ 0 ∧
     ({ type := 3, flags := 4, dest := 9 } : BaseOrder).flags &&& 2 = 0) ∧
    (({ type := 3, flags := 4, dest := 9 } : BaseOrder).ConvertFromOldSavegame
        ⟨false, false, false⟩ (ottdContext 50 0)).GetLoadType = OLFB_FULL_LOAD :=
  ⟨by decide,
    ((C4_full_load_variants ⟨false, false, false⟩ (ottdContext 50 0)
      { type := 3, flags := 4, dest := 9 } (by decide)).1 (by decide) (by decide)).trans
      (by decide)⟩

/-- C5: for every order of kind go-to-station or loading and every legacy flag value, whatever
the settings and the version context, the unload policy becomes transfer when the transfer bit
(value 1) is set, whatever the unload bit; unload when the transfer bit is clear and the unload
bit (value 2) is set; unload-if-possible when both are clear. -/
theorem C5_unload_policy (gui : GUISettings) (stv : SavegameTypeVersion) (o : BaseOrder)
    (hk : o.GetType = OT_GOTO_STATION ∨ o.GetType = OT_LOADING) :
    (o.flags &&& 1 ≠ 0 → (o.ConvertFromOldSavegame gui stv).GetUnloadType = OUFB_TRANSFER) ∧
    (o.flags &&& 1 = 0 → o.flags &&& 2 ≠ 0 →
      (o.ConvertFromOldSavegame gui stv).GetUnloadType = OUFB_UNLOAD) ∧
    (o.flags &&& 1 = 0 → o.flags &&& 2 = 0 →
      (o.ConvertFromOldSavegame gui stv).GetUnloadType = OUF_UNLOAD_IF_POSSIBLE) := by
  rw [convert_unload gui stv o hk, and_mod_256 _ 2 (by norm_num), and_mod_256 _ 1 (by norm_num)]
  refine ⟨?_, ?_, ?_⟩
  · intro h1
    rw [if_pos h1]
  · intro h1 h2
    rw [if_neg (fun h => h h1), if_pos h2]
  · intro h1 h2
    rw [if_neg (fun h => h h1), if_neg (fun h => h h2)]

/-- C5, witness: a go-to-station order with both the transfer and the unload bit set (legacy
flags 3) gets the transfer policy. -/
theorem C5_unload_policy_witness :
    ((({ type := 1, flags := 3, dest := 9 } : BaseOrder).GetType = OT_GOTO_STATION ∨
      ({ type := 1, flags := 3, dest := 9 } : BaseOrder).GetType = OT_LOADING) ∧
     ({ type := 1, flags := 3, dest := 9 } : BaseOrder).flags &&& 1 ≠ 0 ∧
     ({ type := 1, flags := 3, dest := 9 } : BaseOrder).flags &&& 2 ≠ 0) ∧
    (({ type := 1, flags := 3, dest := 9 } : BaseOrder).ConvertFromOldSavegame
        ⟨false, false, false⟩ (ottdContext 4 0)).GetUnloadType = OUFB_TRANSFER :=
  ⟨by decide,
    (C5_unload_policy ⟨false, false, false⟩ (ottdContext 4 0)
      { type := 1, flags := 3, dest := 9 } (by decide)).1 (by decide)⟩

/-- C6, counterexample: in a savegame of OTTD version 50, which is not before version 22, the
same order with legacy flags 8 gets no-stop-at-any-station when `sg_new_nonstop` is set and
no-stop-at-intermediate-stations when it is not: the stop policy does depend on the
settings. -/
theorem C6_counterexample_sg_new_nonstop :
    (ottdContext 50 0).is_ottd_before 22 0 = false ∧
    (({ type := 1, flags := 8, dest := 9 } : BaseOrder).ConvertFromOldSavegame
        ⟨true, false, false⟩ (ottdContext 50 0)).GetNonStopType = ONSF_NO_STOP_AT_ANY_STATION ∧
    (({ type := 1, flags := 8, dest := 9 } : BaseOrder).ConvertFromOldSavegame
        ⟨false, false, false⟩ (ottdContext 50 0)).GetNonStopType
      = ONSF_NO_STOP_AT_INTERMEDIATE_STATIONS ∧
    ONSF_NO_STOP_AT_ANY_STATION ≠ ONSF_NO_STOP_AT_INTERMEDIATE_STATIONS := by
  decide

/-- C6 (as amended): the setting `new_nonstop` affects the stop policy only when the era
predates the cutoff: for every order, every legacy flag value and every version context that is
not before OTTD version 22, the stop policy is the same for any two settings that agree on
`sg_new_nonstop`, so `new_nonstop` (and `sg_full_load_any`) have no effect on it.
`sg_new_nonstop` itself selects the new reading of the bit whatever the era: when it is set, a
set bit (value 8) gives no-stop-at-any-station and a clear bit no-stop-at-intermediate-stations
for every version context; when it is not set and the version context is not before OTTD
version 22, a set bit gives no-stop-at-intermediate-stations and a clear bit
stop-everywhere. -/
theorem C6_stop_policy_settings (gui gui' : GUISettings) (stv : SavegameTypeVersion)
    (o : BaseOrder) :
    (stv.is_ottd_before 22 0 = false → gui.sg_new_nonstop = gui'.sg_new_nonstop →
      (o.ConvertFromOldSavegame gui stv).GetNonStopType
        = (o.ConvertFromOldSavegame gui' stv).GetNonStopType) ∧
    (gui.sg_new_nonstop = true →
      (o.flags &&& 8 ≠ 0 →
        (o.ConvertFromOldSavegame gui stv).GetNonStopType = ONSF_NO_STOP_AT_ANY_STATION) ∧
      (o.flags &&& 8 = 0 →
        (o.ConvertFromOldSavegame gui stv).GetNonStopType
          = ONSF_NO_STOP_AT_INTERMEDIATE_STATIONS)) ∧
    (stv.is_ottd_before 22 0 = false → gui.sg_new_nonstop = false →
      (o.flags &&& 8 ≠ 0 →
        (o.ConvertFromOldSavegame gui stv).GetNonStopType
          = ONSF_NO_STOP_AT_INTERMEDIATE_STATIONS) ∧
      (o.flags &&& 8 = 0 →
        (o.ConvertFromOldSavegame gui stv).GetNonStopType = ONSF_STOP_EVERYWHERE)) := by
  refine ⟨?_, ?_, ?_⟩
  · intro hera hsg
    rw [convert_nonstop, convert_nonstop]
    simp [nonStopOf, hera, hsg]
  · intro hsg
    rw [convert_nonstop]
    unfold nonStopOf
    rw [and_mod_256 _ 8 (by norm_num), hsg, Bool.true_or, if_pos rfl]
    refine ⟨?_, ?_⟩
    · intro hb; rw [if_pos hb]
    · intro hb; rw [if_neg (fun h0 => h0 hb)]
  · intro hera hsg
    rw [convert_nonstop]
    unfold nonStopOf
    rw [and_mod_256 _ 8 (by norm_num), hsg, hera, Bool.false_and, Bool.false_and,
      Bool.false_and, Bool.or_self, if_neg Bool.false_ne_true]
    refine ⟨?_, ?_⟩
    · intro hb; rw [if_pos hb]
    · intro hb; rw [if_neg (fun h0 => h0 hb)]

/-- C6, witness: at OTTD version 50, which is not before version 22, two settings with
`sg_new_nonstop` set that differ in `new_nonstop` and `sg_full_load_any` give the same stop
policy, and for legacy flags 8 that policy is no-stop-at-any-station; with `sg_new_nonstop`
not set the same flags give no-stop-at-intermediate-stations. -/
theorem C6_stop_policy_settings_witness :
    ((ottdContext 50 0).is_ottd_before 22 0 = false ∧
     (⟨true, false, false⟩ : GUISettings).sg_new_nonstop
       = (⟨true, true, true⟩ : GUISettings).sg_new_nonstop ∧
     (⟨true, false, false⟩ : GUISettings).sg_new_nonstop = true ∧
     (⟨false, true, true⟩ : GUISettings).sg_new_nonstop = false ∧
     ({ type := 1, flags := 8, dest := 9 } : BaseOrder).flags &&& 8 ≠ 0) ∧
    (({ type := 1, flags := 8, dest := 9 } : BaseOrder).ConvertFromOldSavegame
        ⟨true, false, false⟩ (ottdContext 50 0)).GetNonStopType
      = (({ type := 1, flags := 8, dest := 9 } : BaseOrder).ConvertFromOldSavegame
        ⟨true, true, true⟩ (ottdContext 50 0)).GetNonStopType ∧
    (({ type := 1, flags := 8, dest := 9 } : BaseOrder).ConvertFromOldSavegame
        ⟨true, false, false⟩ (ottdContext 50 0)).GetNonStopType = ONSF_NO_STOP_AT_ANY_STATION ∧
    (({ type := 1, flags := 8, dest := 9 } : BaseOrder).ConvertFromOldSavegame
        ⟨false, true, true⟩ (ottdContext 50 0)).GetNonStopType
      = ONSF_NO_STOP_AT_INTERMEDIATE_STATIONS :=
  ⟨by decide,
    (C6_stop_policy_settings ⟨true, false, false⟩ ⟨true, true, true⟩ (ottdContext 50 0)
      { type := 1, flags := 8, dest := 9 }).1 (by decide) (by decide),
    ((C6_stop_policy_settings ⟨true, false, false⟩ ⟨true, true, true⟩ (ottdContext 50 0)
      { type := 1, flags := 8, dest := 9 }).2.1 (by decide)).1 (by decide),
    ((C6_stop_policy_settings ⟨false, true, true⟩ ⟨true, true, true⟩ (ottdContext 50 0)
      { type := 1, flags := 8, dest := 9 }).2.2 (by decide) (by decide)).1 (by decide)⟩

/-! ## Unpacking -/

/-- The three shifted fields of `UnpackVersion4Order` do not overlap, so the or is a sum. -/
theorem pack_eq_add (a b c : Nat) (hb : b < 16) (hc : c < 16) :
    (a <<< 16 ||| b <<< 8 ||| c) = a * 65536 + b * 256 + c := by
  have h1 : 2 ^ 8 * b + c = 2 ^ 8 * b ||| c := Nat.mul_add_lt_is_or (by omega) b
  have h2 : 2 ^ 16 * a + (2 ^ 8 * b + c) = 2 ^ 16 * a ||| (2 ^ 8 * b + c) :=
    Nat.mul_add_lt_is_or (by omega) a
  rw [Nat.shiftLeft_eq, Nat.shiftLeft_eq, Nat.lor_assoc, Nat.mul_comm a, Nat.mul_comm b,
    ← h1, ← h2]
  omega

/-- The constructor from a packed value reads the three fields of such a sum back. -/
theorem ofPacked_add (a b c : Nat) (ha : a < 256) (hb : b < 16) (hc : c < 16) :
    BaseOrder.ofPacked ((a * 65536 + b * 256 + c) % 4294967296)
      = { type := c, flags := b, dest := a } := by
  have e1 : (2 : Nat) ^ 8 = 256 := by norm_num
  have e3 : (2 : Nat) ^ 0 = 1 := by norm_num
  have e4 : (2 : Nat) ^ 16 = 65536 := by norm_num
  have hX : (a * 65536 + b * 256 + c) % 4294967296 = a * 65536 + b * 256 + c :=
    Nat.mod_eq_of_lt (by omega)
  simp only [BaseOrder.ofPacked, GB_eq_div_mod, e1, e3, e4, hX, Nat.div_one]
  congr 1 <;> omega

/-- The fields of the order unpacked from a 16-bit value. -/
theorem UnpackVersion4Order_eq (p : Nat) (hp : p < 65536) :
    UnpackVersion4Order p = { type := p % 16, flags := p / 16 % 16, dest := p / 256 } := by
  have e1 : (2 : Nat) ^ 8 = 256 := by norm_num
  have e2 : (2 : Nat) ^ 4 = 16 := by norm_num
  have e3 : (2 : Nat) ^ 0 = 1 := by norm_num
  unfold UnpackVersion4Order
  simp only [Nat.mod_eq_of_lt hp, GB_eq_div_mod, e1, e2, e3, Nat.div_one]
  rw [pack_eq_add _ _ _ (Nat.mod_lt _ (by norm_num)) (Nat.mod_lt _ (by norm_num)),
    ofPacked_add _ _ _ (Nat.mod_lt _ (by norm_num)) (Nat.mod_lt _ (by norm_num))
      (Nat.mod_lt _ (by norm_num))]
  congr 1
  omega

/-- The type of the order unpacked from a 16-bit value is its low nibble. -/
theorem UnpackVersion4Order_GetType (p : Nat) (hp : p < 65536) :
    (UnpackVersion4Order p).GetType = p % 16 := by
  rw [UnpackVersion4Order_eq p hp, GetType_eq]
  simp

/-- The kind bits of a packed value. -/
theorem GB_low4 (p : Nat) : GB p 0 4 = p % 16 := by
  rw [GB_eq_div_mod]; norm_num

/-- C7, counterexample: the packed value 5 has the kind bits of a dummy order, not of
'nothing', yet `UnpackOldOrder` answers an order of type `OT_DUMMY` for it, the very order it
answers for the packed value 80 (kind 'nothing', non-zero). -/
theorem C7_counterexample_kind_dummy :
    (UnpackOldOrder 5).IsType OT_DUMMY = true ∧ GB 5 0 4 ≠ OT_NOTHING ∧
    UnpackOldOrder 5 = UnpackOldOrder 80 ∧ GB 80 0 4 = OT_NOTHING ∧ 80 ≠ 0 := by
  decide

/-- C7 (as amended): for every 16-bit packed value `p`, `UnpackOldOrder p` is of the dummy kind
exactly when the kind bits (bits 0-3 of `p`) are 'nothing' and `p` is non-zero, or the kind bits
are those of a dummy order already; when the kind bits are 'nothing' and `p` is non-zero it is
`UnpackVersion4Order p` with the type set to `OT_DUMMY` and the flags cleared; for `p = 0` it is
the all-zero 'nothing' order; and whenever the kind bits are not 'nothing' it equals
`UnpackVersion4Order p` unchanged. -/
theorem C7_unpack_old_order (p : Nat) (hp : p < 65536) :
    ((UnpackOldOrder p).IsType OT_DUMMY = true ↔
      (GB p 0 4 = OT_NOTHING ∧ p ≠ 0) ∨ GB p 0 4 = OT_DUMMY) ∧
    (GB p 0 4 = OT_NOTHING → p ≠ 0 →
      UnpackOldOrder p = { UnpackVersion4Order p with type := OT_DUMMY, flags := 0 }) ∧
    (p = 0 → UnpackOldOrder p = { type := OT_NOTHING, flags := 0, dest := 0 }) ∧
    (GB p 0 4 ≠ OT_NOTHING → UnpackOldOrder p = UnpackVersion4Order p) := by
  have hT := UnpackVersion4Order_GetType p hp
  have hU : UnpackOldOrder p =
      if p % 16 = 0 ∧ p ≠ 0 then (UnpackVersion4Order p).MakeDummy else UnpackVersion4Order p := by
    unfold UnpackOldOrder
    simp only [Nat.mod_eq_of_lt hp, IsType, hT, OT_NOTHING]
    by_cases h1 : p % 16 = 0 <;> by_cases h2 : p = 0 <;> simp [h1, h2]
  rw [GB_low4]
  refine ⟨?_, ?_, ?_, ?_⟩
  · rw [hU]
    by_cases h : p % 16 = 0 ∧ p ≠ 0
    · rw [if_pos h]
      simp [h, IsType, MakeDummy, GetType_eq, OT_DUMMY, OT_NOTHING]
    · rw [if_neg h]
      simp only [IsType, hT, OT_DUMMY, OT_NOTHING, beq_iff_eq]
      constructor
      · intro h5; exact Or.inr h5
      · rintro (h0 | h5)
        · exact absurd h0 h
        · exact h5
  · intro h0 hne
    rw [hU, if_pos ⟨h0, hne⟩]
    rfl
  · intro h0
    subst h0
    decide
  · intro hne
    rw [hU, if_neg (fun h => hne h.1)]

/-- C7, witness: the packed value 4112 (kind 'nothing', flags 1, destination 16) is unpacked
to a dummy order that keeps the destination. -/
theorem C7_unpack_old_order_witness :
    (4112 < 65536 ∧ GB 4112 0 4 = OT_NOTHING ∧ 4112 ≠ 0) ∧
    UnpackOldOrder 4112 = { UnpackVersion4Order 4112 with type := OT_DUMMY, flags := 0 } :=
  ⟨by decide, (C7_unpack_old_order 4112 (by decide)).2.1 (by decide) (by decide)⟩

/-! ## The legacy branch of `Load_ORDR` -/

/-- The lookup in a pool as a lookup in the list of its slots. -/
theorem Pool.GetIfValid_eq {α : Type} (pool : Pool α) (i : Nat) :
    Pool.GetIfValid pool i = (pool[i]?).getD none := by
  unfold Pool.GetIfValid
  split_ifs with h
  · simp
  · simp [List.getElem?_eq_none (Nat.le_of_not_lt h)]

/-- The loop that creates one item per word at ascending indices in an empty pool fills the
slots in the order of the words. -/
theorem foldl_New_range {α : Type} (f : Nat → α) (l : List Nat) :
    ∀ k, k ≤ l.length →
      (List.range k).foldl (fun pool i => Pool.New pool i (f (l.getD i 0))) []
        = (l.take k).map (fun w => some (f w)) := by
  intro k
  induction k with
  | zero => intro _; simp
  | succ k ih =>
    intro hk
    have hk' : k < l.length := hk
    rw [List.range_succ, List.foldl_append, ih (Nat.le_of_lt hk')]
    simp only [List.foldl_cons, List.foldl_nil, Pool.New, List.length_map, List.length_take,
      Nat.min_eq_left (Nat.le_of_lt hk'), Nat.lt_irrefl, if_false, Nat.sub_self,
      List.replicate_zero, List.append_nil]
    rw [List.take_succ, List.map_append]
    simp [List.getElem?_eq_getElem hk']

/-- The legacy branch as the loop over all orders run on the pool of the created orders. -/
theorem Load_ORDR_legacy_eq (reader : LoadBuffer Nat) :
    Load_ORDR_legacy reader =
      (List.range reader.chunk.length).foldl Load_ORDR_update_next
        ((reader.chunk.map (legacyOrder reader)).map some) := by
  have h1 := foldl_New_range (fun w => Order.default.AssignOrder (UnpackVersion4Order (w % 2 ^ 16)))
    reader.chunk reader.chunk.length (Nat.le_refl _)
  have h2 := foldl_New_range (fun w => Order.ofPacked (w % 2 ^ 32))
    reader.chunk reader.chunk.length (Nat.le_refl _)
  unfold Load_ORDR_legacy
  simp only [List.take_length] at h1 h2
  cases hv : reader.IsOTTDVersionBefore 5 0
  · simp only [Bool.false_eq_true, if_false, h2, List.length_map, List.map_map]
    congr 2
    funext w
    simp [legacyOrder, hv]
  · simp only [if_true, h1, List.length_map, List.map_map]
    congr 2
    funext w
    simp [legacyOrder, hv]

/-- Writing the `next` of an order back into it changes nothing. -/
theorem Order.eta_next (o : Order) : ({ o with next := o.next } : Order) = o := by
  cases o; rfl

/-- The round of slot `k` has not touched slot `k` before it runs. -/
theorem legacySlot_self {os : List Order} {k : Nat} {o : Order} (h : os[k]? = some o) :
    legacySlot os k k = some o := by
  simp [legacySlot, h]

/-- After its own round a slot is free when its order was `OT_NOTHING`, and unchanged otherwise. -/
theorem legacySlot_succ_self {os : List Order} {k : Nat} {o : Order} (h : os[k]? = some o) :
    legacySlot os (k + 1) k = if o.IsType OT_NOTHING = true then none else some o := by
  simp [legacySlot, h]

/-- After the round of the next slot the `next` of a surviving order points there when that
slot holds an order that is not `OT_NOTHING`. -/
theorem legacySlot_succ_succ {os : List Order} {k : Nat} {o : Order} (h : os[k]? = some o) :
    legacySlot os (k + 2) k = if o.IsType OT_NOTHING = true then none
      else some { o with next := if isLive os (k + 1) = true then some (k + 1) else o.next } := by
  simp [legacySlot, h]

/-- The round of slot `k` only touches the slots `k` and `k - 1`. -/
theorem legacySlot_succ_of_ne (os : List Order) (k j : Nat) (h1 : j ≠ k) (h2 : j + 1 ≠ k) :
    legacySlot os (k + 1) j = legacySlot os k j := by
  unfold legacySlot
  cases hj : os[j]? with
  | none => rfl
  | some o =>
    simp only
    have e1 : (j < k + 1) = (j < k) := by
      apply propext; constructor <;> intro h <;> omega
    have e2 : (j + 1 < k + 1) = (j + 1 < k) := by
      apply propext; constructor <;> intro h <;> omega
    simp only [e1, e2]

/-- The round of a slot whose order is `OT_NOTHING` touches no other slot. -/
theorem legacySlot_succ_of_dead (os : List Order) (k j : Nat) (h1 : j ≠ k)
    (hd : isLive os k = false) :
    legacySlot os (k + 1) j = legacySlot os k j := by
  by_cases h2 : j + 1 = k
  · subst h2
    cases hj : os[j]? with
    | none => simp [legacySlot, hj]
    | some o =>
      rw [legacySlot_succ_succ hj, legacySlot_succ_self hj, hd]
      simp only [Bool.false_eq_true, if_false, Order.eta_next]
  · exact legacySlot_succ_of_ne os k j h1 h2

/-- The loop invariant: after `k` rounds of the loop over all orders the pool has its size and
its slots are given by `legacySlot`. -/
theorem update_next_inv (os : List Order) (hlen : os.length < 2 ^ 64) :
    ∀ k, k ≤ os.length →
      ((List.range k).foldl Load_ORDR_update_next (os.map some)).length = os.length ∧
      ∀ j, ((List.range k).foldl Load_ORDR_update_next (os.map some))[j]?
        = if j < os.length then some (legacySlot os k j) else none := by
  intro k
  induction k with
  | zero =>
    intro _
    refine ⟨by simp, ?_⟩
    intro j
    by_cases hj : j < os.length
    · simp [hj, legacySlot, List.getElem?_eq_getElem hj]
    · simp [hj, List.getElem?_eq_none (Nat.le_of_not_lt hj)]
  | succ k ih =>
    intro hk
    have hk' : k < os.length := hk
    obtain ⟨hL, hG⟩ := ih (Nat.le_of_lt hk')
    rw [List.range_succ, List.foldl_append]
    simp only [List.foldl_cons, List.foldl_nil]
    generalize (List.range k).foldl Load_ORDR_update_next (os.map some) = pool at hL hG
    have hok : os[k]? = some os[k] := List.getElem?_eq_getElem hk'
    have hcur : Pool.GetIfValid pool k = some os[k] := by
      rw [Pool.GetIfValid_eq, hG k, if_pos hk', legacySlot_self hok]; rfl
    unfold Load_ORDR_update_next
    rw [hcur]
    simp only
    by_cases hN : (os[k]).IsType OT_NOTHING = true
    · -- the order is deleted
      rw [if_pos hN]
      have hd : isLive os k = false := by simp [isLive, hok, hN]
      refine ⟨by simp [Pool.Delete, hL], ?_⟩
      intro j
      unfold Pool.Delete
      rw [List.getElem?_set]
      by_cases hjk : k = j
      · subst hjk
        rw [if_pos rfl, if_pos (by omega), if_pos hk', legacySlot_succ_self hok, if_pos hN]
      · rw [if_neg hjk, hG j, legacySlot_succ_of_dead os k j (fun h => hjk h.symm) hd]
    · rw [if_neg hN]
      have hlive : isLive os k = true := by simp [isLive, hok, hN]
      cases k with
      | zero =>
        have hprev : Pool.GetIfValid pool ((0 + SIZE_MAX) % 2 ^ 64) = none := by
          rw [Pool.GetIfValid_eq, List.getElem?_eq_none]
          · rfl
          · rw [hL]; simp only [SIZE_MAX]; omega
        rw [hprev]
        refine ⟨hL, ?_⟩
        intro j
        rw [hG j]
        by_cases hj0 : j = 0
        · subst hj0
          rw [legacySlot_self hok, legacySlot_succ_self hok, if_neg hN]
        · rw [legacySlot_succ_of_ne os 0 j hj0 (by omega)]
      | succ m =>
        have hpi : (m + 1 + SIZE_MAX) % 2 ^ 64 = m := by
          simp only [SIZE_MAX]; omega
        rw [hpi]
        have hm : m < os.length := by omega
        have hom : os[m]? = some os[m] := List.getElem?_eq_getElem hm
        have hprev : Pool.GetIfValid pool m
            = if (os[m]).IsType OT_NOTHING = true then none else some os[m] := by
          rw [Pool.GetIfValid_eq, hG m, if_pos hm, legacySlot_succ_self hom]; rfl
        rw [hprev]
        by_cases hNm : (os[m]).IsType OT_NOTHING = true
        · rw [if_pos hNm]
          refine ⟨hL, ?_⟩
          intro j
          rw [hG j]
          by_cases hjm : j = m
          · subst hjm
            rw [legacySlot_succ_self hom, legacySlot_succ_succ hom, if_pos hNm, if_pos hNm]
          · by_cases hjk : j = m + 1
            · subst hjk
              rw [legacySlot_self hok, legacySlot_succ_self hok, if_neg hN]
            · rw [legacySlot_succ_of_ne os (m + 1) j hjk (by omega)]
        · rw [if_neg hNm]
          simp only
          refine ⟨by simp [hL], ?_⟩
          intro j
          rw [List.getElem?_set]
          by_cases hjm : m = j
          · subst hjm
            rw [if_pos rfl, if_pos (by omega), if_pos hm, legacySlot_succ_succ hom, if_neg hNm,
              if_pos hlive]
          · rw [if_neg hjm, hG j]
            by_cases hjk : j = m + 1
            · subst hjk
              rw [legacySlot_self hok, legacySlot_succ_self hok, if_neg hN]
            · rw [legacySlot_succ_of_ne os (m + 1) j hjk (by omega)]

/-- A created order has no `next`. -/
theorem legacyOrder_next (reader : LoadBuffer Nat) (w : Nat) : (legacyOrder reader w).next = none := by
  unfold legacyOrder
  split_ifs <;> rfl

/-- The legacy branch leaves a pool with one slot per word. -/
theorem Load_ORDR_legacy_length (reader : LoadBuffer Nat) (hlen : reader.chunk.length < 2 ^ 64) :
    (Load_ORDR_legacy reader).length = reader.chunk.length := by
  have h := update_next_inv (reader.chunk.map (legacyOrder reader)) (by simpa using hlen)
    reader.chunk.length (by simp)
  rw [Load_ORDR_legacy_eq]
  simpa using h.1

/-- Slot `i` of the order pool after the legacy branch of `Load_ORDR`. -/
theorem Load_ORDR_legacy_slot (reader : LoadBuffer Nat) (hlen : reader.chunk.length < 2 ^ 64)
    (i : Nat) :
    Pool.GetIfValid (Load_ORDR_legacy reader) i =
      match reader.chunk[i]? with
      | none => none
      | some w =>
        if (legacyOrder reader w).IsType OT_NOTHING = true then none
        else some { legacyOrder reader w with
          next := if isLive (reader.chunk.map (legacyOrder reader)) (i + 1) = true
            then some (i + 1) else none } := by
  have h := update_next_inv (reader.chunk.map (legacyOrder reader)) (by simpa using hlen)
    reader.chunk.length (by simp)
  rw [Pool.GetIfValid_eq, Load_ORDR_legacy_eq]
  have h2 := h.2 i
  simp only [List.length_map] at h2
  rw [h2]
  by_cases hi : i < reader.chunk.length
  · rw [if_pos hi, List.getElem?_eq_getElem hi]
    simp only [Option.getD_some, legacySlot, List.getElem?_map, List.getElem?_eq_getElem hi,
      Option.map_some', if_pos hi, legacyOrder_next]
    by_cases hN : (legacyOrder reader reader.chunk[i]).IsType OT_NOTHING = true
    · simp only [hN, if_true]
    · simp only [hN, if_false]
      by_cases hl : isLive (List.map (legacyOrder reader) reader.chunk) (i + 1) = true
      · have : i + 1 < reader.chunk.length := by
          by_contra hc
          simp [isLive, List.getElem?_eq_none (Nat.le_of_not_lt hc)] at hl
        simp [hl, this]
      · simp [hl]
  · rw [if_neg hi, List.getElem?_eq_none (Nat.le_of_not_lt hi)]
    rfl

/-- Position `j` of the created orders is live when the word there makes an order that is not
`OT_NOTHING`. -/
theorem isLive_map_iff (reader : LoadBuffer Nat) (j : Nat) :
    isLive (reader.chunk.map (legacyOrder reader)) j = true ↔
      ∃ w, reader.chunk[j]? = some w ∧ (legacyOrder reader w).IsType OT_NOTHING = false := by
  unfold isLive
  rw [List.getElem?_map]
  cases reader.chunk[j]? with
  | none => simp
  | some w => simp

/-- A surviving order's `next` is the following slot, and that slot survives too. -/
theorem Load_ORDR_legacy_next (reader : LoadBuffer Nat) (hlen : reader.chunk.length < 2 ^ 64)
    (i j : Nat) (o : Order) (ho : Pool.GetIfValid (Load_ORDR_legacy reader) i = some o)
    (hn : o.next = some j) :
    j = i + 1 ∧ ∃ o', Pool.GetIfValid (Load_ORDR_legacy reader) j = some o' := by
  rw [Load_ORDR_legacy_slot reader hlen i] at ho
  cases hw : reader.chunk[i]? with
  | none => simp [hw] at ho
  | some w =>
    simp only [hw] at ho
    by_cases hN : (legacyOrder reader w).IsType OT_NOTHING = true
    · simp [hN] at ho
    · rw [if_neg hN] at ho
      by_cases hl : isLive (reader.chunk.map (legacyOrder reader)) (i + 1) = true
      · rw [if_pos hl] at ho
        have ho' := Option.some.inj ho
        subst ho'
        simp only at hn
        have hj : j = i + 1 := (Option.some.inj hn).symm
        subst hj
        refine ⟨rfl, ?_⟩
        obtain ⟨w', hw', hN'⟩ := (isLive_map_iff reader (i + 1)).mp hl
        rw [Load_ORDR_legacy_slot reader hlen (i + 1)]
        simp only [hw', hN', Bool.false_eq_true, if_false]
        exact ⟨_, rfl⟩
      · rw [if_neg hl] at ho
        have ho' := Option.some.inj ho
        subst ho'
        simp at hn

/-- Every step of a walk along `next` moves to the following slot. -/
theorem followNext_legacy (reader : LoadBuffer Nat) (hlen : reader.chunk.length < 2 ^ 64) :
    ∀ steps i j, followNext (Load_ORDR_legacy reader) steps i = some j → j = i + steps := by
  intro steps
  induction steps with
  | zero =>
    intro i j h
    simp only [followNext] at h
    exact (Option.some.inj h).symm
  | succ s ih =>
    intro i j h
    simp only [followNext] at h
    cases ho : Pool.GetIfValid (Load_ORDR_legacy reader) i with
    | none => simp [ho] at h
    | some o =>
      simp only [ho] at h
      cases hn : o.next with
      | none => simp [hn] at h
      | some j' =>
        simp only [hn] at h
        have h1 := (Load_ORDR_legacy_next reader hlen i j' o ho hn).1
        have h2 := ih j' j h
        omega

/-- A walk along `next` from a slot of the table ends before it leaves the table. -/
theorem followNext_legacy_ends (reader : LoadBuffer Nat) (hlen : reader.chunk.length < 2 ^ 64) :
    ∀ m i, reader.chunk.length - i ≤ m → i < reader.chunk.length →
      ∃ steps, steps ≤ reader.chunk.length - i ∧
        followNext (Load_ORDR_legacy reader) steps i = none := by
  intro m
  induction m with
  | zero => intro i h1 h2; omega
  | succ m ih =>
    intro i h1 h2
    cases ho : Pool.GetIfValid (Load_ORDR_legacy reader) i with
    | none => exact ⟨1, by omega, by simp [followNext, ho]⟩
    | some o =>
      cases hn : o.next with
      | none => exact ⟨1, by omega, by simp [followNext, ho, hn]⟩
      | some j =>
        obtain ⟨hj, o', ho'⟩ := Load_ORDR_legacy_next reader hlen i j o ho hn
        subst hj
        have hlt : i + 1 < reader.chunk.length := by
          by_contra hc
          rw [Pool.GetIfValid_eq, List.getElem?_eq_none] at ho'
          · simp at ho'
          · rw [Load_ORDR_legacy_length reader hlen]; omega
        obtain ⟨s, hs, hf⟩ := ih (i + 1) (by omega) hlt
        exact ⟨s + 1, by omega, by simp [followNext, ho, hn, hf]⟩

/-- Every slot that a walk along `next` reaches holds an order. -/
theorem followNext_legacy_valid (reader : LoadBuffer Nat) (hlen : reader.chunk.length < 2 ^ 64) :
    ∀ steps i j, followNext (Load_ORDR_legacy reader) (steps + 1) i = some j →
      ∃ o', Pool.GetIfValid (Load_ORDR_legacy reader) j = some o' := by
  intro steps
  induction steps with
  | zero =>
    intro i j h
    simp only [followNext] at h
    cases ho : Pool.GetIfValid (Load_ORDR_legacy reader) i with
    | none => simp [ho] at h
    | some o =>
      simp only [ho] at h
      cases hn : o.next with
      | none => simp [hn] at h
      | some j' =>
        simp only [hn] at h
        have hj := Option.some.inj h
        subst hj
        exact (Load_ORDR_legacy_next reader hlen i j' o ho hn).2
  | succ s ih =>
    intro i j h
    rw [followNext] at h
    cases ho : Pool.GetIfValid (Load_ORDR_legacy reader) i with
    | none => simp [ho] at h
    | some o =>
      simp only [ho] at h
      cases hn : o.next with
      | none => simp [hn] at h
      | some j' =>
        simp only [hn] at h
        exact ih j' j h

/-- For a stream before OTTD version 5.2 `Load_ORDR` is its legacy branch, run on the words of
the chunk, and throws nothing. -/
theorem Load_ORDR_of_legacy (reader : OrderLoadBuffer)
    (hlegacy : reader.stv.is_ottd_before 5 2 = true) :
    Load_ORDR reader = { pool := Load_ORDR_legacy (legacyReader reader), thrown := none } := by
  unfold Load_ORDR legacyReader
  rw [if_pos hlegacy]

/-- The legacy branch discards every record whose kind is 'nothing' and leaves the `next` of the
record in the slot before it null; the table it builds from the words `[a, d, b, 0]`. -/
theorem Load_ORDR_legacy_discards (reader : LoadBuffer Nat)
    (hlen : reader.chunk.length < 2 ^ 64) :
    (∀ i w, reader.chunk[i]? = some w → (legacyOrder reader w).IsType OT_NOTHING = true →
      Pool.GetIfValid (Load_ORDR_legacy reader) i = none ∧
      ∀ k o, k + 1 = i → Pool.GetIfValid (Load_ORDR_legacy reader) k = some o → o.next = none) ∧
    (∀ a d b, reader.chunk = [a, d, b, 0] →
      (legacyOrder reader a).IsType OT_NOTHING = false →
      (legacyOrder reader d).IsType OT_NOTHING = true →
      (legacyOrder reader b).IsType OT_NOTHING = false →
      Load_ORDR_legacy reader
        = [some { legacyOrder reader a with next := none }, none,
           some { legacyOrder reader b with next := none }, none]) := by
  refine ⟨?_, ?_⟩
  · intro i w hw hN
    refine ⟨?_, ?_⟩
    · rw [Load_ORDR_legacy_slot reader hlen i]
      simp only [hw, hN, if_true]
    · intro k o hk ho
      subst hk
      cases hn : o.next with
      | none => rfl
      | some j =>
        obtain ⟨hj, o', ho'⟩ := Load_ORDR_legacy_next reader hlen k j o ho hn
        subst hj
        rw [Load_ORDR_legacy_slot reader hlen (k + 1)] at ho'
        simp [hw, hN] at ho'
  · intro a d b hc hA hD hB
    have h0 : (legacyOrder reader 0).IsType OT_NOTHING = true := by
      unfold legacyOrder
      split_ifs <;> decide
    apply List.ext_getElem?
    intro i
    have hs := Load_ORDR_legacy_slot reader hlen i
    rw [Pool.GetIfValid_eq] at hs
    have hL := Load_ORDR_legacy_length reader hlen
    rw [hc] at hL hs
    by_cases hi : i < 4
    · rw [List.getElem?_eq_getElem (by rw [hL]; exact hi)] at hs
      rw [List.getElem?_eq_getElem (by rw [hL]; exact hi)]
      simp only [Option.getD_some] at hs
      rw [hs]
      have hcases : i = 0 ∨ i = 1 ∨ i = 2 ∨ i = 3 := by omega
      rcases hcases with rfl | rfl | rfl | rfl <;>
        simp [isLive, hA, hD, hB, h0]
    · rw [List.getElem?_eq_none (by rw [hL]; simp; omega),
        List.getElem?_eq_none (by simp; omega)]

/-! ## Claims on the legacy branch of `Load_ORDR` -/

/-- C1, counterexample: for the words `[A, dummy, B, empty]` of a stream of OTTD version 4,
with `A = 0x0101`, `B = 0x0201` of kind go-to-station, the dummy `0x0010` of kind 'nothing' with
non-zero bits and the empty word `0`, the table that `Load_ORDR` leaves holds `A` and `B` only,
but the `next` of `A` is null: it is not rewritten to `B` in slot 2. -/
theorem C1_counterexample_not_bridged :
    (ottdContext 4 0).is_ottd_before 5 2 = true ∧
    (Load_ORDR
      { stv := ottdContext 4 0
        IsVersionBefore := fun _ legacy => decide (4 < legacy)
        IsObjectValid := SlIsObjectValidInSavegame (SchemaVersion.ottd 4)
        words := [0x0101, 0x0010, 0x0201, 0]
        elements := [] }).pool
      = [some { type := 1, flags := 0, dest := 1, next := none }, none,
         some { type := 1, flags := 0, dest := 2, next := none }, none] ∧
    (Pool.GetIfValid
      (Load_ORDR
        { stv := ottdContext 4 0
          IsVersionBefore := fun _ legacy => decide (4 < legacy)
          IsObjectValid := SlIsObjectValidInSavegame (SchemaVersion.ottd 4)
          words := [0x0101, 0x0010, 0x0201, 0]
          elements := [] }).pool 0).map Order.next ≠ some (some 2) := by
  decide

/-- C1 (as amended): for every legacy order stream (before OTTD version 5.2, of either word
width, of a length that fits a `size_t`), `Load_ORDR` throws nothing, discards every record
whose kind is 'nothing' and leaves the `next` of the record in the slot before it null, so the
chain ends there and is not bridged; in particular, for the positional records
`[A, dummy, B, all-zero empty]` with `A` and `B` of a kind other than 'nothing' and the dummy
of kind 'nothing', the resulting table holds exactly `A` and `B`, both with `next` null. -/
theorem C1_legacy_discards_nothing (reader : OrderLoadBuffer)
    (hlegacy : reader.stv.is_ottd_before 5 2 = true)
    (hlen : reader.words.length < 2 ^ 64) :
    (Load_ORDR reader).thrown = none ∧
    (∀ i w, reader.words[i]? = some w →
      (legacyOrder (legacyReader reader) w).IsType OT_NOTHING = true →
      Pool.GetIfValid (Load_ORDR reader).pool i = none ∧
      ∀ k o, k + 1 = i → Pool.GetIfValid (Load_ORDR reader).pool k = some o → o.next = none) ∧
    (∀ a d b, reader.words = [a, d, b, 0] →
      (legacyOrder (legacyReader reader) a).IsType OT_NOTHING = false →
      (legacyOrder (legacyReader reader) d).IsType OT_NOTHING = true →
      (legacyOrder (legacyReader reader) b).IsType OT_NOTHING = false →
      (Load_ORDR reader).pool
        = [some { legacyOrder (legacyReader reader) a with next := none }, none,
           some { legacyOrder (legacyReader reader) b with next := none }, none]) := by
  rw [Load_ORDR_of_legacy reader hlegacy]
  exact ⟨rfl, Load_ORDR_legacy_discards (legacyReader reader) hlen⟩

/-- C1, witness: the amended statement at the stream `[0x0101, 0x0010, 0x0201, 0]` of OTTD
version 5.1, whose words are of 32 bits: the table holds the orders of the first and the third
word, both with `next` null. -/
theorem C1_legacy_discards_nothing_witness :
    ((ottdContext 5 1).is_ottd_before 5 2 = true ∧
     ([0x0101, 0x0010, 0x0201, 0] : List Nat).length < 2 ^ 64) ∧
    (Load_ORDR
      { stv := ottdContext 5 1
        IsVersionBefore := fun _ legacy => decide (5 < legacy)
        IsObjectValid := SlIsObjectValidInSavegame (SchemaVersion.ottd 5)
        words := [0x0101, 0x0010, 0x0201, 0]
        elements := [] }).pool
      = [some { type := 1, flags := 1, dest := 0, next := none }, none,
         some { type := 1, flags := 2, dest := 0, next := none }, none] :=
  ⟨by decide,
    ((C1_legacy_discards_nothing
      { stv := ottdContext 5 1
        IsVersionBefore := fun _ legacy => decide (5 < legacy)
        IsObjectValid := SlIsObjectValidInSavegame (SchemaVersion.ottd 5)
        words := [0x0101, 0x0010, 0x0201, 0]
        elements := [] } (by decide) (by decide)).2.2
      0x0101 0x0010 0x0201 rfl (by decide) (by decide) (by decide)).trans (by decide)⟩

/-- C2: for every legacy order stream (before OTTD version 5.2, of either word width, of a
length that fits a `size_t`), after `Load_ORDR` every
non-null `next` of a surviving record addresses a slot that still holds a record, at a larger
index; every slot reached by following `next` from a surviving record holds a record and has a
larger index than the start; and the walk reaches null after at most as many steps as the table
has slots. -/
theorem C2_legacy_next_links_valid (reader : LoadBuffer Nat)
    (hlen : reader.chunk.length < 2 ^ 64)
    (i : Nat) (o : Order) (ho : Pool.GetIfValid (Load_ORDR_legacy reader) i = some o) :
    (∀ j, o.next = some j →
      i < j ∧ ∃ o', Pool.GetIfValid (Load_ORDR_legacy reader) j = some o') ∧
    (∀ steps j, 0 < steps → followNext (Load_ORDR_legacy reader) steps i = some j →
      i < j ∧ ∃ o', Pool.GetIfValid (Load_ORDR_legacy reader) j = some o') ∧
    (∃ steps, steps ≤ (Load_ORDR_legacy reader).length ∧
      followNext (Load_ORDR_legacy reader) steps i = none) := by
  have hi : i < reader.chunk.length := by
    by_contra hc
    rw [Pool.GetIfValid_eq, List.getElem?_eq_none] at ho
    · simp at ho
    · rw [Load_ORDR_legacy_length reader hlen]; omega
  refine ⟨?_, ?_, ?_⟩
  · intro j hn
    obtain ⟨hj, h⟩ := Load_ORDR_legacy_next reader hlen i j o ho hn
    exact ⟨by omega, h⟩
  · intro steps j hs hf
    obtain ⟨s, rfl⟩ : ∃ s, steps = s + 1 := ⟨steps - 1, by omega⟩
    have h1 := followNext_legacy reader hlen (s + 1) i j hf
    exact ⟨by omega, followNext_legacy_valid reader hlen s i j hf⟩
  · obtain ⟨s, hs, hf⟩ := followNext_legacy_ends reader hlen _ i (Nat.le_refl _) hi
    exact ⟨s, by rw [Load_ORDR_legacy_length reader hlen]; omega, hf⟩

/-- C2, witness: in the stream `[0x0101, 0x0201, 0]` of OTTD version 4 the record of slot 0
survives with `next` slot 1, and the walk from it ends. -/
theorem C2_legacy_next_links_valid_witness :
    (([0x0101, 0x0201, 0] : List Nat).length < 2 ^ 64 ∧
     Pool.GetIfValid (Load_ORDR_legacy { stv := ottdContext 4 0, chunk := [0x0101, 0x0201, 0] }) 0
       = some { type := 1, flags := 0, dest := 1, next := some 1 }) ∧
    (∃ steps,
      steps ≤ (Load_ORDR_legacy { stv := ottdContext 4 0, chunk := [0x0101, 0x0201, 0] }).length ∧
      followNext (Load_ORDR_legacy { stv := ottdContext 4 0, chunk := [0x0101, 0x0201, 0] })
        steps 0 = none) :=
  ⟨by decide,
    (C2_legacy_next_links_valid { stv := ottdContext 4 0, chunk := [0x0101, 0x0201, 0] }
      (by decide) 0 { type := 1, flags := 0, dest := 1, next := some 1 } (by decide)).2.2⟩

/-! ## Order backups -/

/-- The loading loop skips nothing, throws nothing, consumes the chunk and reads one object per
element of non-zero length. -/
theorem Load_BKOR_loop_reader (stv : SavegameTypeVersion) (skipped : Nat) :
    ∀ (chunk : List (Option OrderBackup)) (index : Nat) (pool : Pool OrderBackup) (n : Nat),
      (Load_BKOR_loop stv skipped index pool n chunk).reader.skipped = skipped ∧
      (Load_BKOR_loop stv skipped index pool n chunk).reader.chunk = [] ∧
      (Load_BKOR_loop stv skipped index pool n chunk).thrown = none ∧
      (Load_BKOR_loop stv skipped index pool n chunk).reader.objects_read
        = n + (chunk.filter Option.isSome).length := by
  intro chunk
  induction chunk with
  | nil => intro index pool n; simp [Load_BKOR_loop]
  | cons e rest ih =>
    intro index pool n
    cases e with
    | none =>
      simp only [Load_BKOR_loop]
      have h := ih (index + 1) pool n
      simpa using h
    | some element =>
      simp only [Load_BKOR_loop]
      have h := ih (index + 1) (Pool.New pool index (ReadObject_OrderBackup {} element)) (n + 1)
      refine ⟨h.1, h.2.1, h.2.2.1, ?_⟩
      rw [h.2.2.2]
      simp
      omega

/-- The slots of a pool after an item was created at or beyond its end. -/
theorem Pool.New_getElem?_at {α : Type} (pool : Pool α) (index : Nat) (item : α)
    (h : pool.length ≤ index) (j : Nat) :
    (Pool.New pool index item)[j]? =
      if j < pool.length then pool[j]? else if j < index then some none
      else if j = index then some (some item) else none := by
  unfold Pool.New
  rw [if_neg (by omega)]
  by_cases h1 : j < pool.length
  · rw [if_pos h1, List.append_assoc, List.getElem?_append_left h1]
  · rw [if_neg h1, List.append_assoc, List.getElem?_append_right (by omega)]
    by_cases h2 : j < index
    · rw [if_pos h2, List.getElem?_append_left (by simp; omega)]
      simp [List.getElem?_replicate]
      omega
    · rw [if_neg h2, List.getElem?_append_right (by simp; omega)]
      by_cases h3 : j = index
      · subst h3; simp
      · rw [if_neg h3]
        apply List.getElem?_eq_none
        simp
        omega

/-- The size of a pool after an item was created at or beyond its end. -/
theorem Pool.New_length {α : Type} (pool : Pool α) (index : Nat) (item : α)
    (h : pool.length ≤ index) : (Pool.New pool index item).length = index + 1 := by
  unfold Pool.New
  rw [if_neg (by omega)]
  simp
  omega

/-- The loading loop keeps the slots below its start index and fills the others from the
elements of the chunk. -/
theorem Load_BKOR_loop_pool (stv : SavegameTypeVersion) (skipped : Nat) :
    ∀ (chunk : List (Option OrderBackup)) (index : Nat) (pool : Pool OrderBackup) (n : Nat),
      pool.length ≤ index → ∀ j,
      Pool.GetIfValid (Load_BKOR_loop stv skipped index pool n chunk).pool j =
        if j < index then Pool.GetIfValid pool j
        else (chunk.getD (j - index) none).map (ReadObject_OrderBackup {}) := by
  intro chunk
  induction chunk with
  | nil =>
    intro index pool n h j
    simp only [Load_BKOR_loop]
    by_cases hj : j < index
    · rw [if_pos hj]
    · rw [if_neg hj, Pool.GetIfValid_eq, List.getElem?_eq_none (by omega)]
      simp
  | cons e rest ih =>
    intro index pool n h j
    cases e with
    | none =>
      simp only [Load_BKOR_loop]
      rw [ih (index + 1) pool n (by omega) j]
      by_cases hj : j < index
      · rw [if_pos hj, if_pos (by omega)]
      · rw [if_neg hj]
        by_cases hj2 : j = index
        · subst hj2
          rw [if_pos (by omega), Pool.GetIfValid_eq, List.getElem?_eq_none (by omega)]
          simp
        · rw [if_neg (by omega)]
          have : j - index = (j - (index + 1)) + 1 := by omega
          rw [this]
          simp
    | some element =>
      simp only [Load_BKOR_loop]
      rw [ih (index + 1) _ (n + 1) (by rw [Pool.New_length _ _ _ h]) j]
      by_cases hj : j < index
      · rw [if_pos hj, if_pos (by omega), Pool.GetIfValid_eq, Pool.GetIfValid_eq,
          Pool.New_getElem?_at _ _ _ h]
        by_cases h1 : j < pool.length
        · rw [if_pos h1]
        · rw [if_neg h1, if_pos hj, List.getElem?_eq_none (by omega)]
          rfl
      · rw [if_neg hj]
        by_cases hj2 : j = index
        · subst hj2
          rw [if_pos (by omega), Pool.GetIfValid_eq, Pool.New_getElem?_at _ _ _ h,
            if_neg (by omega), if_neg (by omega), if_pos rfl]
          simp
        · rw [if_neg (by omega)]
          have : j - index = (j - (index + 1)) + 1 := by omega
          rw [this]
          simp

/-! ## Claims on the order backup chunk -/

/-- C8: whenever the gate of `Load_BKOR` lets the chunk be decoded (the code is compiled for
replaying, or networking is on and this is not the server) and the version context of the
stream is not the current version, `Load_BKOR` throws `SlCorrupt ("Invalid savegame version")`
with no order backup created, no object read, no element of the chunk consumed and the chunk
not skipped. -/
theorem C8_version_mismatch (DEBUG_DUMP_COMMANDS : Bool) (net : NetworkState)
    (reader : LoadBuffer (Option OrderBackup))
    (hgate : DEBUG_DUMP_COMMANDS = true ∨ (net._networking = true ∧ net._network_server = false))
    (hver : reader.stv.is_current = false) :
    (Load_BKOR DEBUG_DUMP_COMMANDS net reader).thrown
      = some { msg := "Invalid savegame version" } ∧
    (Load_BKOR DEBUG_DUMP_COMMANDS net reader).pool = [] ∧
    (Load_BKOR DEBUG_DUMP_COMMANDS net reader).reader.objects_read = reader.objects_read ∧
    (Load_BKOR DEBUG_DUMP_COMMANDS net reader).reader.chunk = reader.chunk ∧
    (Load_BKOR DEBUG_DUMP_COMMANDS net reader).reader.skipped = reader.skipped := by
  have hg : (!DEBUG_DUMP_COMMANDS && (!net._networking || net._network_server)) = false := by
    rcases hgate with h | ⟨h1, h2⟩
    · simp [h]
    · simp [h1, h2]
  unfold Load_BKOR
  simp [hg, hver]

/-- C8, witness: a network client that reads an order backup chunk from a stream of OTTD
version 180, which is not the current version, gets the corruption error. -/
theorem C8_version_mismatch_witness :
    ((false = true ∨ ((⟨true, false⟩ : NetworkState)._networking = true ∧
        (⟨true, false⟩ : NetworkState)._network_server = false)) ∧
      (ottdContext 180 0).is_current = false) ∧
    (Load_BKOR false ⟨true, false⟩
        { stv := ottdContext 180 0, chunk := [some { user := 1 }] }).thrown
      = some { msg := "Invalid savegame version" } :=
  ⟨⟨by decide, by decide⟩,
    (C8_version_mismatch false ⟨true, false⟩
      { stv := ottdContext 180 0, chunk := [some { user := 1 }] } (by decide) (by decide)).1⟩

/-- C9: when this is not a network client (networking off, or being the server) and the code is
not compiled for replaying, `Load_BKOR` skips the whole chunk, for every content of the chunk
and every version context: no order backup is created, no object is read, nothing is thrown;
when this is a network client, or the code is compiled for replaying, the chunk is not
skipped, and at the current version every element of the chunk is read into the order backup
of its index. -/
theorem C9_load_gate (DEBUG_DUMP_COMMANDS : Bool) (net : NetworkState)
    (reader : LoadBuffer (Option OrderBackup)) :
    (¬ (net._networking = true ∧ net._network_server = false) → DEBUG_DUMP_COMMANDS = false →
      (Load_BKOR DEBUG_DUMP_COMMANDS net reader).pool = [] ∧
      (Load_BKOR DEBUG_DUMP_COMMANDS net reader).reader.objects_read = reader.objects_read ∧
      (Load_BKOR DEBUG_DUMP_COMMANDS net reader).thrown = none ∧
      (Load_BKOR DEBUG_DUMP_COMMANDS net reader).reader.chunk = [] ∧
      (Load_BKOR DEBUG_DUMP_COMMANDS net reader).reader.skipped = reader.skipped + 1) ∧
    ((net._networking = true ∧ net._network_server = false) ∨ DEBUG_DUMP_COMMANDS = true →
      (Load_BKOR DEBUG_DUMP_COMMANDS net reader).reader.skipped = reader.skipped ∧
      (reader.stv.is_current = true →
        (Load_BKOR DEBUG_DUMP_COMMANDS net reader).thrown = none ∧
        (Load_BKOR DEBUG_DUMP_COMMANDS net reader).reader.objects_read
          = reader.objects_read + (reader.chunk.filter Option.isSome).length ∧
        ∀ index, Pool.GetIfValid (Load_BKOR DEBUG_DUMP_COMMANDS net reader).pool index
          = (reader.chunk.getD index none).map (ReadObject_OrderBackup {}))) := by
  refine ⟨?_, ?_⟩
  · intro hpart hdbg
    have hg : (!DEBUG_DUMP_COMMANDS && (!net._networking || net._network_server)) = true := by
      subst hdbg
      cases h1 : net._networking <;> cases h2 : net._network_server <;> simp_all
    unfold Load_BKOR
    simp [hg, LoadBuffer.SkipChunk]
  · intro hgate
    have hg : (!DEBUG_DUMP_COMMANDS && (!net._networking || net._network_server)) = false := by
      rcases hgate with ⟨h1, h2⟩ | h
      · simp [h1, h2]
      · simp [h]
    have hl := Load_BKOR_loop_reader reader.stv reader.skipped reader.chunk 0 []
      reader.objects_read
    refine ⟨?_, ?_⟩
    · unfold Load_BKOR
      cases hc : reader.stv.is_current
      · simp [hg]
      · simp [hg, hl.1]
    · intro hc
      unfold Load_BKOR
      simp only [hg, hc, Bool.false_eq_true, if_false, Bool.not_true]
      refine ⟨hl.2.2.1, hl.2.2.2, ?_⟩
      intro index
      have hp := Load_BKOR_loop_pool reader.stv reader.skipped reader.chunk 0 []
        reader.objects_read (by simp) index
      simpa using hp

/-- C9, witness: a network server that loads a savegame holding one order backup skips the
chunk. -/
theorem C9_load_gate_witness :
    (¬ ((⟨true, true⟩ : NetworkState)._networking = true ∧
        (⟨true, true⟩ : NetworkState)._network_server = false) ∧ false = false) ∧
    ((Load_BKOR false ⟨true, true⟩
        { stv := ottdContext 180 0, chunk := [some { user := 1 }] }).pool = [] ∧
     (Load_BKOR false ⟨true, true⟩
        { stv := ottdContext 180 0, chunk := [some { user := 1 }] }).reader.objects_read = 0 ∧
     (Load_BKOR false ⟨true, true⟩
        { stv := ottdContext 180 0, chunk := [some { user := 1 }] }).thrown = none) :=
  ⟨by decide,
    let h := (C9_load_gate false ⟨true, true⟩
      { stv := ottdContext 180 0, chunk := [some { user := 1 }] }).1 (by decide) rfl
    ⟨h.1, h.2.1, h.2.2.1⟩⟩

/-- The saving loop appends one element per occupied slot, keyed by the slot. -/
theorem Save_BKOR_foldl (pool : Pool OrderBackup) :
    ∀ k (dumper : SaveDumper OrderBackup),
      ((List.range k).foldl (fun dumper index =>
        match Pool.GetIfValid pool index with
        | none => dumper
        | some ob => dumper.WriteElement index ob) dumper).elements
      = dumper.elements ++ (List.range k).filterMap
          (fun index => (Pool.GetIfValid pool index).map (fun ob => (index, ob))) := by
  intro k
  induction k with
  | zero => intro dumper; simp
  | succ k ih =>
    intro dumper
    rw [List.range_succ, List.foldl_append, List.filterMap_append]
    simp only [List.foldl_cons, List.foldl_nil]
    cases hk : Pool.GetIfValid pool k with
    | none =>
      simp only [List.filterMap_cons, hk, Option.map_none', List.filterMap_nil, List.append_nil]
      exact ih dumper
    | some ob =>
      simp only [List.filterMap_cons, hk, Option.map_some', List.filterMap_nil]
      show _ ++ [(k, ob)] = _
      rw [ih dumper, List.append_assoc]

/-- C10: `Save_BKOR` writes no element at all unless networking is on and this is the server,
whatever order backups exist; when networking is on and this is the server it writes, after
what the dumper already holds, exactly one element per order backup in the pool, in ascending
order of index, each keyed by the index of its order backup. -/
theorem C10_save_gate (net : NetworkState) (pool : Pool OrderBackup)
    (dumper : SaveDumper OrderBackup) :
    (¬ (net._networking = true ∧ net._network_server = true) →
      Save_BKOR net pool dumper = dumper) ∧
    (net._networking = true ∧ net._network_server = true →
      (Save_BKOR net pool dumper).elements
        = dumper.elements ++ (List.range pool.length).filterMap
            (fun index => (Pool.GetIfValid pool index).map (fun ob => (index, ob)))) := by
  refine ⟨?_, ?_⟩
  · intro h
    have hg : (!net._networking || !net._network_server) = true := by
      cases h1 : net._networking <;> cases h2 : net._network_server <;> simp_all
    unfold Save_BKOR
    simp [hg]
  · rintro ⟨h1, h2⟩
    unfold Save_BKOR
    simp only [h1, h2, Bool.not_true, Bool.or_self, Bool.false_eq_true, if_false]
    exact Save_BKOR_foldl pool pool.length dumper

/-- C10, witness: a network server with order backups in slots 0 and 2 writes two elements,
keyed 0 and 2; a single-player game writes none. -/
theorem C10_save_gate_witness :
    (((⟨true, true⟩ : NetworkState)._networking = true ∧
      (⟨true, true⟩ : NetworkState)._network_server = true) ∧
     ¬ ((⟨false, false⟩ : NetworkState)._networking = true ∧
      (⟨false, false⟩ : NetworkState)._network_server = true)) ∧
    (Save_BKOR ⟨true, true⟩ [some { user := 1 }, none, some { user := 2 }] {}).elements
      = [(0, { user := 1 }), (2, { user := 2 })] ∧
    Save_BKOR ⟨false, false⟩ [some { user := 1 }, none, some { user := 2 }] {} = {} :=
  ⟨by decide,
    ((C10_save_gate ⟨true, true⟩ [some { user := 1 }, none, some { user := 2 }] {}).2
      (by decide)).trans (by decide),
    (C10_save_gate ⟨false, false⟩ [some { user := 1 }, none, some { user := 2 }] {}).1
      (by decide)⟩

/-! ## Further claims on unpacking, conversion and the gates -/

/-- The three fields of a 16-bit packed order put it together again. -/
theorem unpack_fields_or (p : Nat) :
    p % 16 ||| (p / 16 % 16) <<< 4 ||| (p / 256) <<< 8 = p := by
  have h1 : 2 ^ 4 * (p / 16 % 16) + p % 16 = 2 ^ 4 * (p / 16 % 16) ||| p % 16 :=
    Nat.mul_add_lt_is_or (by omega) _
  have h2 : 2 ^ 8 * (p / 256) + (2 ^ 4 * (p / 16 % 16) + p % 16)
      = 2 ^ 8 * (p / 256) ||| (2 ^ 4 * (p / 16 % 16) + p % 16) :=
    Nat.mul_add_lt_is_or (by omega) _
  rw [Nat.shiftLeft_eq, Nat.shiftLeft_eq, Nat.mul_comm _ (2 ^ 4), Nat.mul_comm _ (2 ^ 8),
    Nat.lor_comm (p % 16), Nat.lor_comm _ (2 ^ 8 * (p / 256)), ← h1, ← h2]
  omega

/-- The three fields of a 32-bit packed order are read back from their sum. -/
theorem packed_fields (a b c : Nat) (ha : a < 65536) (hb : b < 256) (hc : c < 256) :
    (a * 65536 + b * 256 + c) % 256 = c ∧ (a * 65536 + b * 256 + c) / 256 % 256 = b ∧
    (a * 65536 + b * 256 + c) / 65536 % 65536 = a := by
  refine ⟨?_, ?_, ?_⟩ <;> omega

/-- C13: for every 16-bit packed value `p`, `UnpackVersion4Order p` is the order built from a
32-bit value whose bits 0-7 hold bits 0-3 of `p` (the kind), whose bits 8-15 hold bits 4-7 of
`p` (the raw flag nibble) and whose bits 16-31 hold bits 8-15 of `p` (the destination), so that
every other bit is zero; `p` is the or of kind, flags shifted by 4 and destination shifted by
8 of the unpacked order; and two 16-bit values with the same unpacked order are equal. -/
theorem C13_unpack_version4_lossless (p : Nat) (hp : p < 65536) :
    (∃ x, x < 2 ^ 32 ∧ UnpackVersion4Order p = BaseOrder.ofPacked x ∧
      GB x 0 8 = GB p 0 4 ∧ GB x 8 8 = GB p 4 4 ∧ GB x 16 16 = GB p 8 8) ∧
    (UnpackVersion4Order p).type = GB p 0 4 ∧
    (UnpackVersion4Order p).flags = GB p 4 4 ∧
    (UnpackVersion4Order p).dest = GB p 8 8 ∧
    p = ((UnpackVersion4Order p).type ||| (UnpackVersion4Order p).flags <<< 4
          ||| (UnpackVersion4Order p).dest <<< 8) ∧
    (∀ q, q < 65536 → UnpackVersion4Order p = UnpackVersion4Order q → p = q) := by
  have e1 : (2 : Nat) ^ 8 = 256 := by norm_num
  have e2 : (2 : Nat) ^ 4 = 16 := by norm_num
  have e3 : (2 : Nat) ^ 0 = 1 := by norm_num
  have e4 : (2 : Nat) ^ 16 = 65536 := by norm_num
  have hE := UnpackVersion4Order_eq p hp
  refine ⟨?_, ?_, ?_, ?_, ?_, ?_⟩
  · refine ⟨(GB p 8 8 <<< 16 ||| GB p 4 4 <<< 8 ||| GB p 0 4) % 4294967296, ?_, ?_, ?_⟩
    · exact Nat.mod_lt _ (by norm_num)
    · unfold UnpackVersion4Order
      simp only [Nat.mod_eq_of_lt hp]
    · simp only [GB_eq_div_mod, e1, e2, e3, e4, Nat.div_one]
      rw [pack_eq_add _ _ _ (Nat.mod_lt _ (by norm_num)) (Nat.mod_lt _ (by norm_num))]
      have hX : (p / 256 % 256 * 65536 + p / 16 % 16 * 256 + p % 16) % 4294967296
          = p / 256 % 256 * 65536 + p / 16 % 16 * 256 + p % 16 :=
        Nat.mod_eq_of_lt (by omega)
      rw [hX]
      have hf := packed_fields (p / 256 % 256) (p / 16 % 16) (p % 16) (by omega) (by omega)
        (by omega)
      rw [hf.1, hf.2.1, hf.2.2]
      refine ⟨?_, ?_, ?_⟩ <;> omega
  · rw [hE, GB_eq_div_mod]; simp
  · rw [hE, GB_eq_div_mod, e2]
  · rw [hE, GB_eq_div_mod]
    simp only [e1]
    omega
  · rw [hE]
    exact (unpack_fields_or p).symm
  · intro q hq h
    rw [hE, UnpackVersion4Order_eq q hq] at h
    have h1 : p % 16 = q % 16 := congrArg BaseOrder.type h
    have h2 : p / 16 % 16 = q / 16 % 16 := congrArg BaseOrder.flags h
    have h3 : p / 256 = q / 256 := congrArg BaseOrder.dest h
    omega

/-- C13, witness: the packed value `0x1234` unpacks to kind 4, flags 3, destination `0x12`. -/
theorem C13_unpack_version4_lossless_witness :
    (0x1234 < 65536) ∧
    (UnpackVersion4Order 0x1234).type = GB 0x1234 0 4 ∧
    (UnpackVersion4Order 0x1234).flags = GB 0x1234 4 4 ∧
    (UnpackVersion4Order 0x1234).dest = GB 0x1234 8 8 :=
  ⟨by decide,
    (C13_unpack_version4_lossless 0x1234 (by decide)).2.1,
    (C13_unpack_version4_lossless 0x1234 (by decide)).2.2.1,
    (C13_unpack_version4_lossless 0x1234 (by decide)).2.2.2.1⟩

/-- Which slots hold a record after the legacy branch, what the record is, and where its `next`
points. -/
theorem Load_ORDR_legacy_survivors (reader : LoadBuffer Nat)
    (hlen : reader.chunk.length < 2 ^ 64) (i : Nat) :
    ((∃ o, Pool.GetIfValid (Load_ORDR_legacy reader) i = some o) ↔
      ∃ w, reader.chunk[i]? = some w ∧ (legacyOrder reader w).IsType OT_NOTHING = false) ∧
    (∀ o, Pool.GetIfValid (Load_ORDR_legacy reader) i = some o →
      (∃ w, reader.chunk[i]? = some w ∧ o.toBaseOrder = (legacyOrder reader w).toBaseOrder) ∧
      (o.next = some (i + 1) ↔
        (i + 1 < reader.chunk.length ∧
          ∃ o', Pool.GetIfValid (Load_ORDR_legacy reader) (i + 1) = some o')) ∧
      (o.next ≠ some (i + 1) → o.next = none)) := by
  have hslot := Load_ORDR_legacy_slot reader hlen
  have hsurv : ∀ j, (∃ o, Pool.GetIfValid (Load_ORDR_legacy reader) j = some o) ↔
      ∃ w, reader.chunk[j]? = some w ∧ (legacyOrder reader w).IsType OT_NOTHING = false := by
    intro j
    rw [hslot j]
    cases hw : reader.chunk[j]? with
    | none => simp
    | some w =>
      cases hN : (legacyOrder reader w).IsType OT_NOTHING <;> simp [hN]
  refine ⟨hsurv i, ?_⟩
  intro o ho
  rw [hslot i] at ho
  cases hw : reader.chunk[i]? with
  | none => simp [hw] at ho
  | some w =>
    simp only [hw] at ho
    by_cases hN : (legacyOrder reader w).IsType OT_NOTHING = true
    · simp [hN] at ho
    · rw [if_neg hN] at ho
      have ho' := (Option.some.inj ho).symm
      have hlive : isLive (reader.chunk.map (legacyOrder reader)) (i + 1) = true ↔
          (i + 1 < reader.chunk.length ∧
            ∃ o', Pool.GetIfValid (Load_ORDR_legacy reader) (i + 1) = some o') := by
        rw [isLive_map_iff, hsurv (i + 1)]
        constructor
        · rintro ⟨w', hw', hN'⟩
          refine ⟨?_, w', hw', hN'⟩
          by_contra hc
          rw [List.getElem?_eq_none (Nat.le_of_not_lt hc)] at hw'
          exact Option.noConfusion hw'
        · rintro ⟨_, h⟩
          exact h
      subst ho'
      refine ⟨⟨w, rfl, rfl⟩, ?_, ?_⟩
      · rw [← hlive]
        by_cases hl : isLive (reader.chunk.map (legacyOrder reader)) (i + 1) = true
        · simp [hl]
        · simp [hl]
      · intro hne
        by_cases hl : isLive (reader.chunk.map (legacyOrder reader)) (i + 1) = true
        · simp [hl] at hne
        · simp [hl]

/-- C14: for every legacy order stream (before OTTD version 5.2, of either word width, of a
length `n` that fits a `size_t`), `Load_ORDR` throws nothing, and after it slot `i` holds a
record exactly when the word at position `i` is of a kind other than 'nothing'; a surviving
record keeps the members unpacked from its word; its `next` is slot `i + 1` exactly when
`i + 1 < n` and the record at `i + 1` survives too, and is null otherwise, so a discarded
record ends the chain before it and is never bridged. -/
theorem C14_legacy_survivors_and_links (reader : OrderLoadBuffer)
    (hlegacy : reader.stv.is_ottd_before 5 2 = true)
    (hlen : reader.words.length < 2 ^ 64) (i : Nat) :
    (Load_ORDR reader).thrown = none ∧
    ((∃ o, Pool.GetIfValid (Load_ORDR reader).pool i = some o) ↔
      ∃ w, reader.words[i]? = some w ∧
        (legacyOrder (legacyReader reader) w).IsType OT_NOTHING = false) ∧
    (∀ o, Pool.GetIfValid (Load_ORDR reader).pool i = some o →
      (∃ w, reader.words[i]? = some w ∧
        o.toBaseOrder = (legacyOrder (legacyReader reader) w).toBaseOrder) ∧
      (o.next = some (i + 1) ↔
        (i + 1 < reader.words.length ∧
          ∃ o', Pool.GetIfValid (Load_ORDR reader).pool (i + 1) = some o')) ∧
      (o.next ≠ some (i + 1) → o.next = none)) := by
  rw [Load_ORDR_of_legacy reader hlegacy]
  exact ⟨rfl, Load_ORDR_legacy_survivors (legacyReader reader) hlen i⟩

/-- C14, witness: in the stream `[0x0101, 0x0201, 0x0010, 0x0301]` of OTTD version 5.1, whose
words are of 32 bits, the record of slot 1 survives with the members of its word and its
`next` is null, because the record after it is discarded; the record of slot 0 has slot 1 as
its `next`. -/
theorem C14_legacy_survivors_and_links_witness :
    ((ottdContext 5 1).is_ottd_before 5 2 = true ∧
     ([0x0101, 0x0201, 0x0010, 0x0301] : List Nat).length < 2 ^ 64) ∧
    Pool.GetIfValid (Load_ORDR
      { stv := ottdContext 5 1
        IsVersionBefore := fun _ legacy => decide (5 < legacy)
        IsObjectValid := SlIsObjectValidInSavegame (SchemaVersion.ottd 5)
        words := [0x0101, 0x0201, 0x0010, 0x0301]
        elements := [] }).pool 1
      = some { type := 1, flags := 2, dest := 0, next := none } ∧
    Pool.GetIfValid (Load_ORDR
      { stv := ottdContext 5 1
        IsVersionBefore := fun _ legacy => decide (5 < legacy)
        IsObjectValid := SlIsObjectValidInSavegame (SchemaVersion.ottd 5)
        words := [0x0101, 0x0201, 0x0010, 0x0301]
        elements := [] }).pool 0
      = some { type := 1, flags := 1, dest := 0, next := some 1 } ∧
    (({ type := 1, flags := 2, dest := 0, next := none } : Order).next ≠ some (1 + 1) →
      ({ type := 1, flags := 2, dest := 0, next := none } : Order).next = none) :=
  ⟨by decide, by decide, by decide,
    ((C14_legacy_survivors_and_links
      { stv := ottdContext 5 1
        IsVersionBefore := fun _ legacy => decide (5 < legacy)
        IsObjectValid := SlIsObjectValidInSavegame (SchemaVersion.ottd 5)
        words := [0x0101, 0x0201, 0x0010, 0x0301]
        elements := [] } (by decide) (by decide) 1).2.2
      { type := 1, flags := 2, dest := 0, next := none } (by decide)).2.2⟩

/-- C15: for every order of kind go-to-depot and every legacy flag value `f`, whatever the
settings and the version context, the depot action becomes halt exactly when `(f & 6) = 4` and
service-only otherwise; the stored depot order type has the automatic-service bit exactly when
`(f & 6) = 6` and the part-of-orders bit exactly when the bit of value 2 of `f` is set, with no
other bit; and two flag values that agree on the bits of value 4 and 2 give the same depot
action and depot order type, so the bit of value 1 and the bits from value 8 up have no
effect. -/
theorem C15_depot_bits (gui : GUISettings) (stv : SavegameTypeVersion) (o : BaseOrder)
    (hk : o.GetType = OT_GOTO_DEPOT) :
    ((o.ConvertFromOldSavegame gui stv).GetDepotActionType =
      if o.flags &&& 6 = 4 then ODATFB_HALT else ODATF_SERVICE_ONLY) ∧
    ((o.ConvertFromOldSavegame gui stv).GetDepotOrderType =
      (if o.flags &&& 6 = 6 then ODTFB_SERVICE else ODTF_MANUAL) |||
        (if o.flags &&& 2 ≠ 0 then ODTFB_PART_OF_ORDERS else 0)) ∧
    ((o.ConvertFromOldSavegame gui stv).GetDepotOrderType &&& ODTFB_SERVICE ≠ 0 ↔
      o.flags &&& 6 = 6) ∧
    ((o.ConvertFromOldSavegame gui stv).GetDepotOrderType &&& ODTFB_PART_OF_ORDERS ≠ 0 ↔
      o.flags &&& 2 ≠ 0) ∧
    (∀ o2 : BaseOrder, o2.GetType = OT_GOTO_DEPOT → o2.flags &&& 6 = o.flags &&& 6 →
      (o2.ConvertFromOldSavegame gui stv).GetDepotActionType
        = (o.ConvertFromOldSavegame gui stv).GetDepotActionType ∧
      (o2.ConvertFromOldSavegame gui stv).GetDepotOrderType
        = (o.ConvertFromOldSavegame gui stv).GetDepotOrderType) := by
  have h62 : ∀ f : Nat, f &&& 2 = (f &&& 6) &&& 2 := by
    intro f
    have h : (6 : Nat) &&& 2 = 2 := rfl
    rw [Nat.and_assoc, h]
  have hcases : ∀ f : Nat, f &&& 6 = 0 ∨ f &&& 6 = 2 ∨ f &&& 6 = 4 ∨ f &&& 6 = 6 := by
    intro f
    have hlt : f &&& 6 < 8 := Nat.lt_of_le_of_lt Nat.and_le_right (by norm_num)
    have h1 : (f &&& 6) &&& 1 = 0 := by
      rw [Nat.and_assoc]; exact Nat.and_zero f
    have h1' : (f &&& 6) % 2 = 0 := by
      have := Nat.and_pow_two_sub_one_eq_mod (f &&& 6) 1
      simpa [h1] using this.symm
    omega
  have hA : ∀ x : BaseOrder, x.GetType = OT_GOTO_DEPOT →
      (x.ConvertFromOldSavegame gui stv).GetDepotActionType =
        if x.flags &&& 6 = 4 then ODATFB_HALT else ODATF_SERVICE_ONLY := by
    intro x hx
    rw [convert_depot_action gui stv x hx, and_mod_256 _ 6 (by norm_num)]
  have hO : ∀ x : BaseOrder, x.GetType = OT_GOTO_DEPOT →
      (x.ConvertFromOldSavegame gui stv).GetDepotOrderType =
        (if x.flags &&& 6 = 6 then ODTFB_SERVICE else ODTF_MANUAL) |||
          (if (x.flags &&& 6) &&& 2 ≠ 0 then ODTFB_PART_OF_ORDERS else 0) := by
    intro x hx
    rw [convert_depot_order gui stv x hx, and_mod_256 _ 6 (by norm_num),
      and_mod_256 _ 2 (by norm_num), h62 x.flags]
    split_ifs <;> rfl
  refine ⟨hA o hk, ?_, ?_, ?_, ?_⟩
  · rw [hO o hk, ← h62]
  · rw [hO o hk]
    rcases hcases o.flags with h | h | h | h <;> rw [h] <;> decide
  · rw [hO o hk, h62 o.flags]
    rcases hcases o.flags with h | h | h | h <;> rw [h] <;> decide
  · intro o2 hk2 h
    rw [hA o2 hk2, hA o hk, hO o2 hk2, hO o hk, h]
    exact ⟨rfl, rfl⟩

/-- C15, witness: a go-to-depot order with legacy flags 15 gets service-only with the
automatic-service and part-of-orders bits, as one with flags 6 does. -/
theorem C15_depot_bits_witness :
    (({ type := 2, flags := 15, dest := 9 } : BaseOrder).GetType = OT_GOTO_DEPOT) ∧
    ((({ type := 2, flags := 15, dest := 9 } : BaseOrder).ConvertFromOldSavegame
        ⟨false, false, false⟩ (ottdContext 4 0)).GetDepotOrderType &&& ODTFB_SERVICE ≠ 0 ↔
      ({ type := 2, flags := 15, dest := 9 } : BaseOrder).flags &&& 6 = 6) :=
  ⟨by decide,
    (C15_depot_bits ⟨false, false, false⟩ (ottdContext 4 0)
      { type := 2, flags := 15, dest := 9 } (by decide)).2.2.1⟩

/-- C16: for every order, of any kind, and every legacy flag value, the stop-policy bit (value
8) is read with the new semantics exactly when `sg_new_nonstop` is set, or the version context
is before OTTD version 22, the savegame type is neither TTO nor TTD and `new_nonstop` is set:
then a set bit gives no-stop-at-any-station and a clear bit no-stop-at-intermediate-stations;
otherwise a set bit gives no-stop-at-intermediate-stations and a clear bit
stop-everywhere. -/
theorem C16_stop_policy_semantics (gui : GUISettings) (stv : SavegameTypeVersion)
    (o : BaseOrder) :
    ((gui.sg_new_nonstop = true ∨ (stv.is_ottd_before 22 0 = true ∧
        stv.type ≠ SavegameType.SGT_TTO ∧ stv.type ≠ SavegameType.SGT_TTD ∧
        gui.new_nonstop = true)) →
      (o.flags &&& 8 ≠ 0 →
        (o.ConvertFromOldSavegame gui stv).GetNonStopType = ONSF_NO_STOP_AT_ANY_STATION) ∧
      (o.flags &&& 8 = 0 →
        (o.ConvertFromOldSavegame gui stv).GetNonStopType
          = ONSF_NO_STOP_AT_INTERMEDIATE_STATIONS)) ∧
    (¬ (gui.sg_new_nonstop = true ∨ (stv.is_ottd_before 22 0 = true ∧
        stv.type ≠ SavegameType.SGT_TTO ∧ stv.type ≠ SavegameType.SGT_TTD ∧
        gui.new_nonstop = true)) →
      (o.flags &&& 8 ≠ 0 →
        (o.ConvertFromOldSavegame gui stv).GetNonStopType
          = ONSF_NO_STOP_AT_INTERMEDIATE_STATIONS) ∧
      (o.flags &&& 8 = 0 →
        (o.ConvertFromOldSavegame gui stv).GetNonStopType = ONSF_STOP_EVERYWHERE)) := by
  have hc : (gui.sg_new_nonstop || (stv.is_ottd_before 22 0 && stv.type != SavegameType.SGT_TTO
      && stv.type != SavegameType.SGT_TTD && gui.new_nonstop)) = true ↔
      (gui.sg_new_nonstop = true ∨ (stv.is_ottd_before 22 0 = true ∧
        stv.type ≠ SavegameType.SGT_TTO ∧ stv.type ≠ SavegameType.SGT_TTD ∧
        gui.new_nonstop = true)) := by
    simp only [Bool.or_eq_true, Bool.and_eq_true, bne_iff_ne, ne_eq, and_assoc]
  rw [convert_nonstop]
  unfold nonStopOf
  rw [and_mod_256 _ 8 (by norm_num)]
  refine ⟨?_, ?_⟩
  · intro h
    rw [if_pos (hc.mpr h)]
    refine ⟨?_, ?_⟩
    · intro hb; rw [if_pos hb]
    · intro hb; rw [if_neg (fun h0 => h0 hb)]
  · intro h
    rw [if_neg (fun h0 => h (hc.mp h0))]
    refine ⟨?_, ?_⟩
    · intro hb; rw [if_pos hb]
    · intro hb; rw [if_neg (fun h0 => h0 hb)]

/-- C16, witness: at OTTD version 4 with `new_nonstop` set the bit is read with the new
semantics, so flags 8 give no-stop-at-any-station. -/
theorem C16_stop_policy_semantics_witness :
    (((⟨false, true, false⟩ : GUISettings).sg_new_nonstop = true ∨
        ((ottdContext 4 0).is_ottd_before 22 0 = true ∧
         (ottdContext 4 0).type ≠ SavegameType.SGT_TTO ∧
         (ottdContext 4 0).type ≠ SavegameType.SGT_TTD ∧
         (⟨false, true, false⟩ : GUISettings).new_nonstop = true)) ∧
      ({ type := 1, flags := 8, dest := 9 } : BaseOrder).flags &&& 8 ≠ 0) ∧
    (({ type := 1, flags := 8, dest := 9 } : BaseOrder).ConvertFromOldSavegame
        ⟨false, true, false⟩ (ottdContext 4 0)).GetNonStopType = ONSF_NO_STOP_AT_ANY_STATION :=
  ⟨by decide,
    ((C16_stop_policy_semantics ⟨false, true, false⟩ (ottdContext 4 0)
      { type := 1, flags := 8, dest := 9 }).1 (by decide)).1 (by decide)⟩

/-- C18: with the code not compiled for replaying, for every combination of the networking and
server flags: `Save_BKOR` writes an element for some pool exactly when networking is on and
this is the server; `Load_BKOR` leaves the chunk unskipped for some reader exactly when
networking is on and this is not the server; the two never hold together, so a context that
writes the chunk is never one that reads it back; and with networking off `Save_BKOR` writes
nothing and `Load_BKOR` skips the chunk, creating nothing and throwing nothing. -/
theorem C18_gates_exclusive (net : NetworkState) :
    ((∃ pool dumper, Save_BKOR net pool dumper ≠ dumper) ↔
      (net._networking = true ∧ net._network_server = true)) ∧
    ((∃ reader, (Load_BKOR false net reader).reader.skipped = reader.skipped) ↔
      (net._networking = true ∧ net._network_server = false)) ∧
    ¬ ((∃ pool dumper, Save_BKOR net pool dumper ≠ dumper) ∧
       (∃ reader, (Load_BKOR false net reader).reader.skipped = reader.skipped)) ∧
    (net._networking = false →
      (∀ pool dumper, Save_BKOR net pool dumper = dumper) ∧
      ∀ reader, (Load_BKOR false net reader).reader.skipped = reader.skipped + 1 ∧
        (Load_BKOR false net reader).pool = [] ∧ (Load_BKOR false net reader).thrown = none) := by
  have hw : Save_BKOR ⟨true, true⟩ [some {}] {} ≠ {} :=
    fun h => absurd (congrArg (fun d => d.elements.length) h) (by decide)
  have hr : (Load_BKOR false ⟨true, false⟩ { stv := ottdContext 4 0, chunk := [] }).reader.skipped
      = (0 : Nat) := by decide
  have hS : (∃ pool dumper, Save_BKOR net pool dumper ≠ dumper) ↔
      (net._networking = true ∧ net._network_server = true) := by
    cases net with
    | mk n s =>
      cases n <;> cases s
      · simp [Save_BKOR]
      · simp [Save_BKOR]
      · simp [Save_BKOR]
      · simp only [and_self, iff_true]
        exact ⟨[some {}], {}, hw⟩
  have hL : (∃ reader, (Load_BKOR false net reader).reader.skipped = reader.skipped) ↔
      (net._networking = true ∧ net._network_server = false) := by
    cases net with
    | mk n s =>
      cases n <;> cases s
      · simp [Load_BKOR, LoadBuffer.SkipChunk]
      · simp [Load_BKOR, LoadBuffer.SkipChunk]
      · simp only [and_self, iff_true]
        exact ⟨{ stv := ottdContext 4 0, chunk := [] }, hr⟩
      · simp [Load_BKOR, LoadBuffer.SkipChunk]
  refine ⟨hS, hL, ?_, ?_⟩
  · rw [hS, hL]
    rintro ⟨⟨_, h1⟩, ⟨_, h2⟩⟩
    rw [h1] at h2
    exact Bool.noConfusion h2
  · intro hn
    cases net with
    | mk n s =>
      simp only at hn
      subst hn
      simp [Save_BKOR, Load_BKOR, LoadBuffer.SkipChunk]

/-- C18, witness: on a network server `Save_BKOR` writes the chunk for a pool with one order
backup, and no reader is left unskipped by `Load_BKOR`. -/
theorem C18_gates_exclusive_witness :
    (∃ pool dumper, Save_BKOR ⟨true, true⟩ pool dumper ≠ dumper) ∧
    ¬ (∃ reader, (Load_BKOR false ⟨true, true⟩ reader).reader.skipped = reader.skipped) :=
  ⟨(C18_gates_exclusive ⟨true, true⟩).1.mpr ⟨rfl, rfl⟩,
    fun h => (C18_gates_exclusive ⟨true, true⟩).2.2.1
      ⟨(C18_gates_exclusive ⟨true, true⟩).1.mpr ⟨rfl, rfl⟩, h⟩⟩

/-! ## Claims on `Ptrs_ORDR` -/

set_option maxRecDepth 100000 in
/-- Reading bits 3 and 7 of the `flags` byte back after the two timetable stores, checked on
every byte. -/
theorem HasBit_SB_aux : ∀ f, f < 256 → ∀ t, t < 2 → ∀ w, w < 2 →
    HasBit (SB (SB f 7 1 t) 3 1 w) 7 = decide (t = 1) ∧
    HasBit (SB (SB f 7 1 t) 3 1 w) 3 = decide (w = 1) := by
  decide

/-- `SetTravelTimetabled` keeps the times of an order. -/
theorem SetTravelTimetabled_times (o : BaseOrder) (b : Bool) :
    (o.SetTravelTimetabled b).GetWaitTime = o.GetWaitTime := by
  unfold SetTravelTimetabled
  split_ifs <;> rfl

/-- The timetable flags after `SetTravelTimetabled` and then `SetWaitTimetabled`: each is read
back as it was set; for a conditional order, where nothing is stored, because the times asked
about are the times of the order. -/
theorem timetabled_after_set (o : BaseOrder) :
    ((o.SetTravelTimetabled (decide (o.GetTravelTime > 0))).SetWaitTimetabled
        (decide ((o.SetTravelTimetabled (decide (o.GetTravelTime > 0))).GetWaitTime > 0))
      ).IsTravelTimetabled = decide (o.travel_time > 0) ∧
    ((o.SetTravelTimetabled (decide (o.GetTravelTime > 0))).SetWaitTimetabled
        (decide ((o.SetTravelTimetabled (decide (o.GetTravelTime > 0))).GetWaitTime > 0))
      ).IsWaitTimetabled = decide (o.wait_time > 0) ∧
    ((o.SetTravelTimetabled (decide (o.GetTravelTime > 0))).SetWaitTimetabled
        (decide ((o.SetTravelTimetabled (decide (o.GetTravelTime > 0))).GetWaitTime > 0))
      ).travel_time = o.travel_time ∧
    ((o.SetTravelTimetabled (decide (o.GetTravelTime > 0))).SetWaitTimetabled
        (decide ((o.SetTravelTimetabled (decide (o.GetTravelTime > 0))).GetWaitTime > 0))
      ).wait_time = o.wait_time ∧
    ((o.SetTravelTimetabled (decide (o.GetTravelTime > 0))).SetWaitTimetabled
        (decide ((o.SetTravelTimetabled (decide (o.GetTravelTime > 0))).GetWaitTime > 0))
      ).type = o.type ∧
    (o.IsType OT_CONDITIONAL = true →
      ((o.SetTravelTimetabled (decide (o.GetTravelTime > 0))).SetWaitTimetabled
        (decide ((o.SetTravelTimetabled (decide (o.GetTravelTime > 0))).GetWaitTime > 0))
      ).flags = o.flags) := by
  rw [SetTravelTimetabled_times]
  have hty : ∀ (x : BaseOrder) (f : Nat), ({ x with flags := f } : BaseOrder).IsType OT_CONDITIONAL
      = x.IsType OT_CONDITIONAL := fun _ _ => rfl
  cases hc : o.IsType OT_CONDITIONAL with
  | true =>
    simp [SetTravelTimetabled, SetWaitTimetabled, IsTravelTimetabled, IsWaitTimetabled, hc]
  | false =>
    have key : ∀ t w, t < 2 → w < 2 →
        HasBit (SB (SB o.flags 7 1 t) 3 1 w) 7 = decide (t = 1) ∧
        HasBit (SB (SB o.flags 7 1 t) 3 1 w) 3 = decide (w = 1) := by
      intro t w ht hw
      have h := HasBit_SB_aux (o.flags % 256) (Nat.mod_lt _ (by norm_num)) t ht w hw
      rwa [SB_mod] at h
    by_cases ht : o.travel_time > 0 <;> by_cases hw : o.wait_time > 0 <;>
      simp only [SetTravelTimetabled, SetWaitTimetabled, IsTravelTimetabled, IsWaitTimetabled,
        hc, hty, GetTravelTime, GetWaitTime, ht, hw, decide_True, decide_False, Bool.not_false,
        if_true, Bool.false_eq_true, if_false, and_true, false_implies]
    · exact ⟨(key 1 1 (by decide) (by decide)).1, (key 1 1 (by decide) (by decide)).2⟩
    · exact ⟨(key 1 0 (by decide) (by decide)).1, (key 1 0 (by decide) (by decide)).2⟩
    · exact ⟨(key 0 1 (by decide) (by decide)).1, (key 0 1 (by decide) (by decide)).2⟩
    · exact ⟨(key 0 0 (by decide) (by decide)).1, (key 0 0 (by decide) (by decide)).2⟩

/-- Without an error the loop of `Load_ORDR` keeps the slots below its start index and fills
each other slot from the element of its index. -/
theorem Load_ORDR_loop_pool (reader : OrderLoadBuffer) :
    ∀ (elements : List (Option (List Nat))) (index : Nat) (pool : Pool Order),
      pool.length ≤ index →
      (Load_ORDR_loop reader index pool elements).thrown = none →
      ∀ j, Pool.GetIfValid (Load_ORDR_loop reader index pool elements).pool j =
        if j < index then Pool.GetIfValid pool j
        else
          match elements.getD (j - index) none with
          | none => none
          | some bytes =>
            match Load_ORDR_read reader bytes with
            | Except.ok order => some order
            | Except.error _ => none := by
  intro elements
  induction elements with
  | nil =>
    intro index pool h _ j
    simp only [Load_ORDR_loop]
    by_cases hj : j < index
    · rw [if_pos hj]
    · rw [if_neg hj, Pool.GetIfValid_eq, List.getElem?_eq_none (by omega)]
      simp
  | cons e rest ih =>
    intro index pool h hok j
    cases e with
    | none =>
      simp only [Load_ORDR_loop] at hok ⊢
      rw [ih (index + 1) pool (by omega) hok j]
      by_cases hj : j < index
      · rw [if_pos hj, if_pos (by omega)]
      · rw [if_neg hj]
        by_cases hj2 : j = index
        · subst hj2
          rw [if_pos (by omega), Pool.GetIfValid_eq, List.getElem?_eq_none (by omega)]
          simp
        · rw [if_neg (by omega)]
          have : j - index = (j - (index + 1)) + 1 := by omega
          rw [this]
          simp
    | some bytes =>
      simp only [Load_ORDR_loop] at hok ⊢
      cases hr : Load_ORDR_read reader bytes with
      | error e =>
        rw [hr] at hok
        exact Option.noConfusion hok
      | ok order =>
        rw [hr] at hok
        simp only at hok ⊢
        rw [ih (index + 1) _ (by rw [Pool.New_length _ _ _ h]) hok j]
        by_cases hj : j < index
        · rw [if_pos hj, if_pos (by omega), Pool.GetIfValid_eq, Pool.GetIfValid_eq,
            Pool.New_getElem?_at _ _ _ h]
          by_cases h1 : j < pool.length
          · rw [if_pos h1]
          · rw [if_neg h1, if_pos hj, List.getElem?_eq_none (by omega)]
            rfl
        · rw [if_neg hj]
          by_cases hj2 : j = index
          · subst hj2
            rw [if_pos (by omega), Pool.GetIfValid_eq, Pool.New_getElem?_at _ _ _ h,
              if_neg (by omega), if_neg (by omega), if_pos rfl]
            simp [hr]
          · rw [if_neg (by omega)]
            have : j - index = (j - (index + 1)) + 1 := by omega
            rw [this]
            simp

/-- C17: on the branch of `Load_ORDR` for streams at or after OTTD version 5.2, when the load
throws nothing, every element of the chunk that `ReadObject` decodes to an order `o` leaves in
the slot of its index an order `r` such that: for a stream older than version (19, 190), `r`
is travel-timetabled (`IsTravelTimetabled`) exactly when the decoded travel time is greater
than 0 and wait-timetabled (`IsWaitTimetabled`) exactly when the decoded wait time is greater
than 0, with the type, the times and `next` as decoded, a conditional order keeping its flags
byte; for a stream at or after that version, `r` is `o`, so neither flag is altered after
decoding. -/
theorem C17_timetabled_flags (reader : OrderLoadBuffer)
    (hmodern : reader.stv.is_ottd_before 5 2 = false)
    (hok : (Load_ORDR reader).thrown = none)
    (index : Nat) (bytes rest : List Nat) (o : Order)
    (helem : reader.elements[index]? = some (some bytes))
    (hread : ReadObject reader.IsObjectValid GetOrderDescription Order.default bytes
      = Except.ok (o, rest)) :
    ∃ r, Pool.GetIfValid (Load_ORDR reader).pool index = some r ∧
      (reader.IsVersionBefore 19 190 = true →
        (r.IsTravelTimetabled = true ↔ o.GetTravelTime > 0) ∧
        (r.IsWaitTimetabled = true ↔ o.GetWaitTime > 0) ∧
        r.GetTravelTime = o.GetTravelTime ∧ r.GetWaitTime = o.GetWaitTime ∧
        r.type = o.type ∧ r.next = o.next ∧
        (o.IsType OT_CONDITIONAL = true → r.flags = o.flags)) ∧
      (reader.IsVersionBefore 19 190 = false → r = o) := by
  have hL : Load_ORDR reader = Load_ORDR_loop reader 0 [] reader.elements := by
    unfold Load_ORDR
    simp [hmodern]
  rw [hL] at hok ⊢
  have hp := Load_ORDR_loop_pool reader reader.elements 0 [] (by simp) hok index
  simp only [Nat.not_lt_zero, if_false, Nat.sub_zero, List.getD_eq_getElem?_getD, helem,
    Option.getD_some] at hp
  rw [hp]
  unfold Load_ORDR_read
  rw [hread]
  simp only
  cases hv : reader.IsVersionBefore 19 190 with
  | false =>
    rw [if_neg Bool.false_ne_true]
    exact ⟨o, rfl, fun h => Bool.noConfusion h, fun _ => rfl⟩
  | true =>
    rw [if_pos rfl]
    refine ⟨_, rfl, ?_, fun h => Bool.noConfusion h⟩
    intro _
    have ht := timetabled_after_set o.toBaseOrder
    refine ⟨?_, ?_, ht.2.2.1, ht.2.2.2.1, ht.2.2.2.2.1, rfl, ht.2.2.2.2.2⟩
    · show (_ : Bool) = true ↔ _
      rw [ht.1]
      simp [GetTravelTime]
    · show (_ : Bool) = true ↔ _
      rw [ht.2.1]
      simp [GetWaitTime]

/-- C17, witness: a stream of OTTD version 100, older than version (19, 190), holds one element
that decodes to a go-to-station order with travel time 5 and wait time 0; the order of slot 0
is travel-timetabled and not wait-timetabled. -/
theorem C17_timetabled_flags_witness :
    ((ottdContext 100 0).is_ottd_before 5 2 = false ∧
     ReadObject (SlIsObjectValidInSavegame (SchemaVersion.ottd 100)) GetOrderDescription
        Order.default [1, 0, 0, 7, 0, 0, 0, 0, 0, 0, 0, 0, 0, 5]
      = Except.ok
          ({ type := 1, flags := 0, dest := 7, refit_cargo_mask := 0, wait_time := 0,
             travel_time := 5, max_speed := 65535, next := none }, [])) ∧
    ∃ r, Pool.GetIfValid (Load_ORDR
        { stv := ottdContext 100 0
          IsVersionBefore := fun _ legacy => decide (100 < legacy)
          IsObjectValid := SlIsObjectValidInSavegame (SchemaVersion.ottd 100)
          words := []
          elements := [some [1, 0, 0, 7, 0, 0, 0, 0, 0, 0, 0, 0, 0, 5]] }).pool 0 = some r ∧
      r.IsTravelTimetabled = true ∧ r.IsWaitTimetabled = false :=
  ⟨⟨by decide, rfl⟩,
    let ⟨r, h1, h2, _⟩ := C17_timetabled_flags
      { stv := ottdContext 100 0
        IsVersionBefore := fun _ legacy => decide (100 < legacy)
        IsObjectValid := SlIsObjectValidInSavegame (SchemaVersion.ottd 100)
        words := []
        elements := [some [1, 0, 0, 7, 0, 0, 0, 0, 0, 0, 0, 0, 0, 5]] }
      (by decide) (by decide) 0 [1, 0, 0, 7, 0, 0, 0, 0, 0, 0, 0, 0, 0, 5] []
      { type := 1, flags := 0, dest := 7, refit_cargo_mask := 0, wait_time := 0,
        travel_time := 5, max_speed := 65535, next := none } rfl rfl
    ⟨r, h1, (h2 (by decide)).1.mpr (by decide),
      by
        cases hw : r.IsWaitTimetabled with
        | false => rfl
        | true => exact absurd ((h2 (by decide)).2.1.mp hw) (by decide)⟩⟩

/-! ## Saving the orders and loading them back -/

end OrderSl
